import Mathlib

set_option maxRecDepth 20000

/-
Verification of the segregated-free-list dynamic memory allocator (mm.c).

The heap is modelled as a byte-addressed memory `Mem := Nat → Nat` (each
cell holds one byte, kept < 256 by the write primitives), together with a
record `Heap` holding the current break, the sbrk limit, and the two C
globals `heap_listp` and `seg_list_start`.  32-bit words are read and
written little-endian through `get32`/`put32`; the 8-byte directory slots
through `get64`/`put64`, matching the C code's `unsigned int` and
`unsigned long` accesses.  `mem_sbrk` extends the break and fails
(returning `none`, C's `(void * )-1`) when the request exceeds the limit.

Every allocator routine of mm.c is translated statement by statement:
reads happen against the memory as it stands at that point of the C
statement sequence, writes follow the C order.  While loops are
translated with an explicit fuel argument (the C loops have no bound of
their own; callers pass a fuel that dominates any list walk in a heap of
the current size).  Sizes and products are reduced modulo 2^64 where the
C `size_t` arithmetic can wrap.  Natural subtraction is used for address
differences; on the states considered by the claims the C values never
underflow, so this agrees with the source.
-/

namespace MM

/-! ### Constants from mm.c -/

def WSIZE : Nat := 4
def DSIZE : Nat := 8
def CHUNKSIZE : Nat := 464
def BASEADDR : Nat := 0x800000000
def SEG_NUM : Nat := 14

/-! ### Byte-addressed memory and word access -/

abbrev Mem := Nat → Nat

def writeByte (m : Mem) (a v : Nat) : Mem :=
  fun x => if x = a then v % 256 else m x

def get32 (m : Mem) (a : Nat) : Nat :=
  m a + 256 * m (a+1) + 65536 * m (a+2) + 16777216 * m (a+3)

def put32 (m : Mem) (a v : Nat) : Mem :=
  writeByte (writeByte (writeByte (writeByte m a v) (a+1) (v / 256)) (a+2) (v / 65536))
    (a+3) (v / 16777216)

def get64 (m : Mem) (a : Nat) : Nat :=
  m a + 256 * m (a+1) + 65536 * m (a+2) + 16777216 * m (a+3) +
    4294967296 * m (a+4) + 1099511627776 * m (a+5) + 281474976710656 * m (a+6) +
    72057594037927936 * m (a+7)

def put64 (m : Mem) (a v : Nat) : Mem :=
  writeByte (writeByte (writeByte (writeByte (writeByte (writeByte (writeByte (writeByte
    m a v) (a+1) (v / 256)) (a+2) (v / 65536)) (a+3) (v / 16777216)) (a+4) (v / 4294967296))
    (a+5) (v / 1099511627776)) (a+6) (v / 281474976710656)) (a+7) (v / 72057594037927936)

/-- `memcpy(dst, src, n)`: the bytes `[dst, dst+n)` take the values the
source region had before the call, everything else is unchanged. -/
def memcpy (m : Mem) (dst src n : Nat) : Mem :=
  fun x => if dst ≤ x ∧ x < dst + n then m (src + (x - dst)) else m x

/-- `memset(p, v, n)`. -/
def memset (m : Mem) (p v n : Nat) : Mem :=
  fun x => if p ≤ x ∧ x < p + n then v % 256 else m x

/-! ### The heap state and the raw-heap (memlib) interface -/

structure Heap where
  mem : Mem
  brk : Nat
  limit : Nat
  heap_listp : Nat
  seg_list_start : Nat

/-- A fresh process: empty heap at `BASEADDR`, globals zero. -/
def initialHeap (limit : Nat) : Heap :=
  { mem := fun _ => 0, brk := BASEADDR, limit := limit,
    heap_listp := 0, seg_list_start := 0 }

/-- `mem_sbrk(n)`: grow the break by `n` bytes, returning the old break,
or fail (C returns `(void * )-1`) when the limit is exceeded. -/
def mem_sbrk (st : Heap) (n : Nat) : Heap × Option Nat :=
  if st.brk + n ≤ st.limit then ({ st with brk := st.brk + n }, some st.brk)
  else (st, none)

/-- `mem_heap_hi()`: address of the last byte of the heap. -/
def mem_heap_hi (st : Heap) : Nat := st.brk - 1

/-- `mem_heap_lo()`. -/
def mem_heap_lo (_st : Heap) : Nat := BASEADDR

/-! ### The mm.c macros -/

def PACK (size alloc : Nat) : Nat := size ||| alloc

def GET_SIZE (m : Mem) (p : Nat) : Nat := get32 m p &&& 0xFFFFFFF8

def GET_ALLOC (m : Mem) (p : Nat) : Nat := get32 m p &&& 0x1

def HDRP (bp : Nat) : Nat := bp - 4

def FTRP (m : Mem) (bp : Nat) : Nat := bp + GET_SIZE m (HDRP bp) - 8

def NEXT_BLKP (m : Mem) (bp : Nat) : Nat := bp + GET_SIZE m (HDRP bp)

def PREV_BLKP (m : Mem) (bp : Nat) : Nat := bp - GET_SIZE m (bp - 8)

def GET_PREV_ALLOC (m : Mem) (p : Nat) : Nat := get32 m (HDRP p) &&& 0x2

def GET_PREV (m : Mem) (p : Nat) : Nat := get32 m p

def SET_PREV (m : Mem) (p v : Nat) : Mem := put32 m p v

def GET_NEXT (m : Mem) (p : Nat) : Nat := get32 m (p + WSIZE)

def SET_NEXT (m : Mem) (p v : Nat) : Mem := put32 m (p + WSIZE) v

def OFFSET_REAL (o : Nat) : Nat := o + BASEADDR

def REAL_OFFSET (r : Nat) : Nat := r - BASEADDR

/-! ### Size classes -/

/-- The if-chain of `get_seg_listp` mapping a size to its class index. -/
def seg_index (size : Nat) : Nat :=
  if size < 16 then 0
  else if size < 32 then 1
  else if size < 64 then 2
  else if size < 128 then 3
  else if size < 256 then 4
  else if size < 480 then 5
  else if size < 960 then 6
  else if size < 1920 then 7
  else if size < 3840 then 8
  else if size < 7680 then 9
  else if size < 15360 then 10
  else if size < 30720 then 11
  else if size < 61440 then 12
  else 13

/-- `get_seg_listp`: address of the directory slot for `size`. -/
def get_seg_listp (st : Heap) (size : Nat) : Nat :=
  st.seg_list_start + seg_index size * DSIZE

/-! ### Free-list manipulation -/

/-- `add_free_block`: push `ptr` on the head of its size class list. -/
def add_free_block (st : Heap) (ptr : Nat) : Heap :=
  let m := st.mem
  let free_listp := get_seg_listp st (GET_SIZE m (HDRP ptr))
  let first_free := get64 m free_listp
  if first_free = 0 then
    let m := put64 m free_listp ptr
    let m := SET_PREV m ptr 0
    let m := SET_NEXT m ptr 0
    { st with mem := m }
  else
    let m := SET_PREV m ptr 0
    let m := SET_NEXT m ptr (first_free - BASEADDR)
    let m := put64 m free_listp ptr
    let m := SET_PREV m first_free (ptr - BASEADDR)
    { st with mem := m }

/-- `remove_free_block`: unlink `ptr` from its size class list. -/
def remove_free_block (st : Heap) (ptr : Nat) : Heap :=
  let m := st.mem
  let free_listp := get_seg_listp st (GET_SIZE m (HDRP ptr))
  let prev := GET_PREV m ptr
  let next := GET_NEXT m ptr
  if prev = 0 then
    if next = 0 then
      { st with mem := put64 m free_listp 0 }
    else
      let m := put64 m free_listp (next + BASEADDR)
      let m := SET_PREV m (OFFSET_REAL next) 0
      { st with mem := m }
  else
    if next = 0 then
      { st with mem := SET_NEXT m (OFFSET_REAL prev) 0 }
    else
      let m := SET_PREV m (OFFSET_REAL next) prev
      let m := SET_NEXT m (OFFSET_REAL prev) next
      { st with mem := m }

/-! ### Coalescing -/

/-- `coalesce`: four-way case analysis on the neighbours' alloc bits;
returns the pointer of the (possibly merged) free block. -/
def coalesce (st : Heap) (ptr : Nat) : Heap × Nat :=
  let prev_alloc := GET_PREV_ALLOC st.mem ptr
  let next_alloc := GET_ALLOC st.mem (HDRP (NEXT_BLKP st.mem ptr))
  let size := GET_SIZE st.mem (HDRP ptr)
  if prev_alloc ≠ 0 ∧ next_alloc ≠ 0 then
    (st, ptr)
  else
    let st := remove_free_block st ptr
    let (st, ptr) :=
      if prev_alloc ≠ 0 ∧ next_alloc = 0 then
        let st := remove_free_block st (NEXT_BLKP st.mem ptr)
        let size := size + GET_SIZE st.mem (HDRP (NEXT_BLKP st.mem ptr))
        let m := put32 st.mem (HDRP ptr) (PACK size 2)
        let m := put32 m (FTRP m ptr) (PACK size 0)
        ({ st with mem := m }, ptr)
      else if prev_alloc = 0 ∧ next_alloc ≠ 0 then
        let st := remove_free_block st (PREV_BLKP st.mem ptr)
        let size := size + GET_SIZE st.mem (HDRP (PREV_BLKP st.mem ptr))
        let m := put32 st.mem (FTRP st.mem ptr) (PACK size 0)
        let m := put32 m (HDRP (PREV_BLKP m ptr))
          (PACK size (GET_PREV_ALLOC m (PREV_BLKP m ptr)))
        ({ st with mem := m }, PREV_BLKP m ptr)
      else
        let st := remove_free_block st (PREV_BLKP st.mem ptr)
        let st := remove_free_block st (NEXT_BLKP st.mem ptr)
        let size := size + GET_SIZE st.mem (HDRP (NEXT_BLKP st.mem ptr)) +
          GET_SIZE st.mem (HDRP (PREV_BLKP st.mem ptr))
        let m := put32 st.mem (HDRP (PREV_BLKP st.mem ptr))
          (PACK size (GET_PREV_ALLOC st.mem (PREV_BLKP st.mem ptr)))
        let m := put32 m (FTRP m (NEXT_BLKP m ptr)) (PACK size 0)
        ({ st with mem := m }, PREV_BLKP m ptr)
    (add_free_block st ptr, ptr)

/-! ### Heap extension -/

/-- The post-alignment size computed by `extend_heap` from `words`. -/
def extend_heap_size (words : Nat) : Nat :=
  let size := (if words % 2 = 1 then (words + 1) * WSIZE else words * WSIZE) % 2^64
  max size DSIZE

/-- `extend_heap` with the dead conditional removed (see
`extend_heap_src` below and claim C9): grow the heap, write the new free
block's header/footer and a fresh epilogue, insert the block into its
list when its size is at least 16, and coalesce. -/
def extend_heap (st : Heap) (words : Nat) : Heap × Option Nat :=
  let size := extend_heap_size words
  match mem_sbrk st size with
  | (st1, none) => (st1, none)
  | (st1, some bp) =>
    let m := put32 st1.mem (HDRP bp) (PACK size (GET_PREV_ALLOC st1.mem bp))
    let m := put32 m (FTRP m bp) (PACK size 0)
    let m := put32 m (HDRP (NEXT_BLKP m bp)) (PACK 0 1)
    let st2 := { st1 with mem := m }
    let st3 := if 2 * DSIZE ≤ size then add_free_block st2 bp else st2
    let (st4, p') := coalesce st3 bp
    (st4, some p')

/-- The literal source `extend_heap`: the local `size` is read before its
first assignment when the preceding block is free (`junk` stands for the
indeterminate initial value of the uninitialized C variable); the result
of that conditional is then overwritten by the unconditional alignment
computation. -/
def extend_heap_src (junk : Nat) (st : Heap) (words : Nat) : Heap × Option Nat :=
  let e := mem_heap_hi st + 1
  let size := if GET_PREV_ALLOC st.mem e = 0
    then junk - GET_SIZE st.mem (HDRP (PREV_BLKP st.mem e))
    else junk
  let _ := size
  let size := extend_heap_size words
  match mem_sbrk st size with
  | (st1, none) => (st1, none)
  | (st1, some bp) =>
    let m := put32 st1.mem (HDRP bp) (PACK size (GET_PREV_ALLOC st1.mem bp))
    let m := put32 m (FTRP m bp) (PACK size 0)
    let m := put32 m (HDRP (NEXT_BLKP m bp)) (PACK 0 1)
    let st2 := { st1 with mem := m }
    let st3 := if 2 * DSIZE ≤ size then add_free_block st2 bp else st2
    let (st4, p') := coalesce st3 bp
    (st4, some p')

/-! ### Initialization -/

/-- The `for` loop of `mm_init`: allocate one 8-byte directory slot per
segregated list and zero it. -/
def init_seg_loop (st : Heap) : Nat → Heap × Bool
  | 0 => (st, true)
  | i + 1 =>
    match mem_sbrk st (2 * WSIZE) with
    | (st1, none) => (st1, false)
    | (st1, some p) =>
      let m := put32 st1.mem p 0
      let m := put32 m (p + WSIZE) 0
      init_seg_loop { st1 with mem := m } i

/-- `mm_init`: directory slots, prologue, epilogue, then a first free
chunk of `CHUNKSIZE` bytes. -/
def mm_init (st : Heap) : Heap × Int :=
  let st := { st with seg_list_start := BASEADDR }
  match init_seg_loop st SEG_NUM with
  | (st1, false) => (st1, -1)
  | (st1, true) =>
    match mem_sbrk st1 (4 * WSIZE) with
    | (st2, none) => (st2, -1)
    | (st2, some hp) =>
      let m := put32 st2.mem hp 0
      let m := put32 m (hp + WSIZE) (PACK DSIZE 1)
      let m := put32 m (hp + 2 * WSIZE) (PACK DSIZE 1)
      let m := put32 m (hp + 3 * WSIZE) (PACK 0 3)
      let st3 := { st2 with mem := m, heap_listp := hp + 2 * WSIZE }
      match extend_heap st3 (CHUNKSIZE / WSIZE) with
      | (st4, none) => (st4, -1)
      | (st4, some _) => (st4, 0)

/-! ### Fit search -/

/-- The first-fit `while` loop of `find_seg_fit` (`asize < SEG_SIZE7`):
advance along the next links, returning the first block that fits. -/
def first_fit_loop (m : Mem) (asize : Nat) : Nat → Nat → Option Nat
  | 0, _ => none
  | fuel + 1, bp =>
    if GET_NEXT m bp ≠ 0 then
      let bp1 := OFFSET_REAL (GET_NEXT m bp)
      if asize ≤ GET_SIZE m (HDRP bp1) then some bp1
      else first_fit_loop m asize fuel bp1
    else none

/-- The best-fit `while` loop of `find_seg_fit` (large sizes): track the
smallest fitting block seen so far (`small_size`, `result`), returning an
exact match immediately. -/
def best_fit_loop (m : Mem) (asize : Nat) :
    Nat → Nat → Nat → Option Nat → Option Nat
  | 0, _, _, result => result
  | fuel + 1, bp, small_size, result =>
    if GET_NEXT m bp ≠ 0 then
      let bp1 := OFFSET_REAL (GET_NEXT m bp)
      let block_size := GET_SIZE m (HDRP bp1)
      if asize = block_size then some bp1
      else if asize < block_size then
        if result = none ∨ block_size < small_size then
          best_fit_loop m asize fuel bp1 block_size (some bp1)
        else
          best_fit_loop m asize fuel bp1 small_size result
      else
        best_fit_loop m asize fuel bp1 small_size result
    else result

/-- `find_seg_fit`: search one segregated list; first fit below
`SEG_SIZE7 = 960` bytes, best fit otherwise. -/
def find_seg_fit (m : Mem) (fuel asize free_listp : Nat) : Option Nat :=
  let first_free := get64 m free_listp
  if first_free = 0 then none
  else
    let bp := first_free
    if asize < 960 then
      if asize ≤ GET_SIZE m (HDRP bp) then some bp
      else first_fit_loop m asize fuel bp
    else
      let block_size := GET_SIZE m (HDRP bp)
      if asize = block_size then some bp
      else if asize < block_size then
        best_fit_loop m asize fuel bp block_size (some bp)
      else
        best_fit_loop m asize fuel bp 0 none

/-- The `while` loop of `find_fit`: advance to the next larger class and
search it, up to the last list. -/
def find_fit_loop (m : Mem) (sls fuel asize : Nat) : Nat → Nat → Option Nat
  | 0, free_listp => find_seg_fit m fuel asize free_listp
  | k + 1, free_listp =>
    if free_listp < sls + (SEG_NUM - 1) * DSIZE then
      let free_listp := free_listp + DSIZE
      match find_seg_fit m fuel asize free_listp with
      | some fit => some fit
      | none => find_fit_loop m sls fuel asize k free_listp
    else find_seg_fit m fuel asize free_listp

/-- Fuel passed to the list walks: more than one step per 8 heap bytes,
which dominates the length of any cycle-free free list. -/
def list_fuel (st : Heap) : Nat := (st.brk - BASEADDR) / 8 + 2

/-- `find_fit`: start at the class of `asize` and climb. -/
def find_fit (st : Heap) (asize : Nat) : Option Nat :=
  let fuel := list_fuel st
  let free_listp := get_seg_listp st asize
  match find_seg_fit st.mem fuel asize free_listp with
  | some fit => some fit
  | none => find_fit_loop st.mem st.seg_list_start fuel asize SEG_NUM free_listp

/-! ### List views of the segregated lists (for the find-fit analysis)

`chain` extracts the successor chain of a list node as a `List` (failing
when the fuel runs out), `seglist` the whole node list of one class, and
`bestFit`/`best_fit_list` are the specification-side descriptions of the
best-fit policy that `find_seg_fit` is compared against. -/

/-- The nodes reachable from `bp` by `next` links, in traversal order
(`bp` itself excluded), or `none` if `fuel` runs out first. -/
def chain (m : Mem) : Nat → Nat → Option (List Nat)
  | 0, _ => none
  | fuel + 1, bp =>
    if GET_NEXT m bp = 0 then some []
    else
      match chain m fuel (OFFSET_REAL (GET_NEXT m bp)) with
      | some l => some (OFFSET_REAL (GET_NEXT m bp) :: l)
      | none => none

/-- All nodes of the free list headed at directory slot `slot`. -/
def seglist (m : Mem) (fuel slot : Nat) : Option (List Nat) :=
  if get64 m slot = 0 then some []
  else
    match chain m fuel (get64 m slot) with
    | some l => some (get64 m slot :: l)
    | none => none

/-- Specification-side best fit: the first node of the list whose size
is minimal among the nodes of size at least `A`. -/
def bestFit (m : Mem) (A : Nat) : List Nat → Option Nat
  | [] => none
  | b :: t =>
    match bestFit m A t with
    | none => if A ≤ GET_SIZE m (HDRP b) then some b else none
    | some c =>
      if A ≤ GET_SIZE m (HDRP b) ∧ GET_SIZE m (HDRP b) ≤ GET_SIZE m (HDRP c)
        then some b else some c

/-- The best-fit accumulator loop of `find_seg_fit`, replayed on the
extracted node list instead of the fuelled link walk. -/
def best_fit_list (m : Mem) (A : Nat) : List Nat → Nat → Option Nat → Option Nat
  | [], _, result => result
  | b :: t, small_size, result =>
    let block_size := GET_SIZE m (HDRP b)
    if A = block_size then some b
    else if A < block_size then
      if result = none ∨ block_size < small_size then
        best_fit_list m A t block_size (some b)
      else best_fit_list m A t small_size result
    else best_fit_list m A t small_size result

/-! ### Placement -/

/-- `place`: allocate `asize` bytes of the free block `ptr`, splitting
off the remainder as a new free block when at least `2 * DSIZE = 16`
bytes are left over. -/
def place (st : Heap) (ptr asize : Nat) : Heap :=
  let csize := GET_SIZE st.mem (HDRP ptr)
  let prev_alloc := GET_PREV_ALLOC st.mem ptr
  let st := remove_free_block st ptr
  if 2 * DSIZE ≤ csize - asize then
    let m := put32 st.mem (HDRP ptr) (PACK asize (prev_alloc ||| 1))
    let ptr1 := NEXT_BLKP m ptr
    let m := put32 m (HDRP ptr1) (PACK (csize - asize) 2)
    let m := put32 m (FTRP m ptr1) (PACK (csize - asize) 0)
    add_free_block { st with mem := m } ptr1
  else
    let m := put32 st.mem (HDRP ptr) (PACK csize (prev_alloc ||| 1))
    let ptr1 := NEXT_BLKP m ptr
    let m := if ptr1 ≠ 0 then put32 m (HDRP ptr1) (get32 m (HDRP ptr1) ||| 0x2) else m
    { st with mem := m }

/-! ### The exported operations -/

/-- `malloc`: implicit initialization on first use, spurious-request
check, size adjustment, fit search, placement, heap extension on miss. -/
def malloc (st : Heap) (size : Nat) : Heap × Option Nat :=
  let st := if st.heap_listp = 0 then (mm_init st).1 else st
  if size = 0 then (st, none)
  else
    let asize := if size ≤ DSIZE then 2 * DSIZE
      else (DSIZE * (((size + WSIZE + (DSIZE - 1)) % 2^64) / DSIZE)) % 2^64
    match find_fit st asize with
    | some ptr => (place st ptr asize, some ptr)
    | none =>
      let extendsize := max asize CHUNKSIZE
      match extend_heap st (extendsize / WSIZE) with
      | (st1, none) => (st1, none)
      | (st1, some ptr) => (place st1 ptr asize, some ptr)

/-- `free`: null and out-of-heap pointers are ignored; otherwise clear
the alloc bit, write a footer, clear the successor's prev-alloc bit,
insert into the free list and coalesce. -/
def free (st : Heap) (ptr : Nat) : Heap :=
  if ptr = 0 then st
  else if mem_heap_hi st < ptr ∨ ptr < mem_heap_lo st then st
  else
    let size := GET_SIZE st.mem (HDRP ptr)
    let m := put32 st.mem (HDRP ptr) (PACK size (GET_PREV_ALLOC st.mem ptr))
    let m := put32 m (FTRP m ptr) (PACK size 0)
    let nxt := NEXT_BLKP m ptr
    let m := if nxt ≠ 0 then put32 m (HDRP nxt) (get32 m (HDRP nxt) &&& 0xFFFFFFFD) else m
    let st := add_free_block { st with mem := m } ptr
    (coalesce st ptr).1

/-- `realloc`: malloc a new block, copy `min(size, GET_SIZE(HDRP(old)))`
bytes, free the old block. -/
def realloc (st : Heap) (oldptr size : Nat) : Heap × Option Nat :=
  if oldptr = 0 then malloc st size
  else if size = 0 then (free st oldptr, none)
  else
    match malloc st size with
    | (st1, none) => (st1, none)
    | (st1, some newptr) =>
      let oldsize := GET_SIZE st1.mem (HDRP oldptr)
      let oldsize := if size < oldsize then size else oldsize
      let m := memcpy st1.mem newptr oldptr oldsize
      let st2 := free { st1 with mem := m } oldptr
      (st2, some newptr)

/-- `calloc`: `malloc(nmemb * size)` then `memset(newptr, 0, bytes)`.
The source does not test `newptr`; when `malloc` fails and `bytes ≠ 0`
the `memset` dereferences the null pointer, modelled as `Except.error`.
The multiplication is `size_t` arithmetic, i.e. modulo `2^64`. -/
def calloc (st : Heap) (nmemb size : Nat) : Except Unit (Heap × Option Nat) :=
  let bytes := (nmemb * size) % 2^64
  match malloc st bytes with
  | (st1, some newptr) =>
    .ok ({ st1 with mem := memset st1.mem newptr 0 bytes }, some newptr)
  | (st1, none) =>
    if bytes = 0 then .ok (st1, none)
    else .error ()

/-- True when `calloc` reaches the null-pointer `memset`, i.e. aborts
instead of returning. -/
def callocAborts (st : Heap) (nmemb size : Nat) : Bool :=
  match calloc st nmemb size with
  | .error _ => true
  | .ok _ => false

/-! ### The heap checker

`mm_checkheap` and its helpers print a diagnostic line for each violated
invariant; the model collects the printed messages in a list (the
`printf` format arguments carrying block addresses are dropped, keeping
the fixed text of each message). -/

/-- `ALIGN(p)` of mm.c: round up to a multiple of 8 (in `size_t`). -/
def ALIGN (p : Nat) : Nat := ((p + 7) % 2^64) &&& 0xFFFFFFFFFFFFFFF8

/-- `aligned(p)`. -/
def alignedP (p : Nat) : Bool := ALIGN p = p

/-- `in_heap(p)`. -/
def in_heap (st : Heap) (p : Nat) : Bool :=
  p ≤ mem_heap_hi st && BASEADDR ≤ p

/-- `check_block`: heap bounds, alignment, minimum size (the prologue is
exempted), and footer/header agreement for free blocks. -/
def check_block (st : Heap) (ptr : Nat) : List String :=
  let head_size := GET_SIZE st.mem (HDRP ptr)
  (if ¬ in_heap st ptr then ["block not in heap"] else []) ++
  (if ¬ alignedP ptr then ["the block is not correctly aligned"] else []) ++
  (if head_size < 2 * DSIZE ∧ ptr ≠ st.heap_listp then ["wrong size of block"] else []) ++
  (if GET_ALLOC st.mem (HDRP ptr) = 0 ∧ GET_SIZE st.mem (FTRP st.mem ptr) ≠ head_size
    then ["the head_size and foot size is not the same"] else [])

/-- The `while` loop of `check_list`: walk the next links, checking
alignment, bounds, class membership and link consistency, counting the
traversed nodes. -/
def check_list_loop (st : Heap) (size_lo size_hi : Nat) :
    Nat → Nat → List String × Nat
  | 0, _ => ([], 0)
  | fuel + 1, bp =>
    if GET_NEXT st.mem bp ≠ 0 then
      let errs1 := (if ¬ alignedP bp then ["not aligned correctly"] else []) ++
        (if ¬ in_heap st bp then ["block out of heap"] else [])
      let cur_size := GET_SIZE st.mem (HDRP bp)
      let errs2 := if cur_size < size_lo ∨ size_hi ≤ cur_size
        then ["free block falls in wrong segregated list"] else []
      let nxt := OFFSET_REAL (GET_NEXT st.mem bp)
      if nxt = 0 then
        let rest := check_list_loop st size_lo size_hi fuel bp
        (errs1 ++ errs2 ++ rest.1, rest.2 + 1)
      else
        let errs3 := if GET_PREV st.mem nxt ≠ REAL_OFFSET bp
          then ["next/previous pointers are not consistent"] else []
        let rest := check_list_loop st size_lo size_hi fuel nxt
        (errs1 ++ errs2 ++ errs3 ++ rest.1, rest.2 + 1)
    else ([], 0)

/-- `check_list`: messages and node count for one segregated list. -/
def check_list (st : Heap) (fuel listp size_lo size_hi : Nat) : List String × Nat :=
  let first_free := get64 st.mem listp
  if first_free = 0 then ([], 0)
  else
    let r := check_list_loop st size_lo size_hi fuel first_free
    (r.1, r.2 + 1)

/-- The block sweep of `mm_checkheap`: from `heap_listp` to the epilogue,
run `check_block`, count free blocks, check prev-alloc consistency and
adjacency of free blocks. -/
def check_heap_loop (st : Heap) : Nat → Nat → List String × Nat
  | 0, _ => ([], 0)
  | fuel + 1, ptr =>
    if 0 < GET_SIZE st.mem (HDRP ptr) then
      let errs1 := check_block st ptr
      let cnt := if GET_ALLOC st.mem (HDRP ptr) = 0 then 1 else 0
      let errs2 := if GET_ALLOC st.mem (HDRP ptr) ≠
          GET_PREV_ALLOC st.mem (NEXT_BLKP st.mem ptr) / 2
        then ["allocate flag error of next block"] else []
      let nxt := NEXT_BLKP st.mem ptr
      let errs3 := if (GET_ALLOC st.mem (HDRP ptr) ||| GET_ALLOC st.mem (HDRP nxt)) = 0
        then ["two consecutive free blocks exists"] else []
      let rest := check_heap_loop st fuel (NEXT_BLKP st.mem ptr)
      (errs1 ++ errs2 ++ errs3 ++ rest.1, cnt + rest.2)
    else ([], 0)

/-- The `sizes` array of `mm_checkheap` (its `INT_MAX` macro is
`(1<<30)-1`). -/
def sizes_arr : List Nat :=
  [0, 16, 32, 64, 128, 256, 480, 960, 1920, 3840, 7680, 15360, 30720, 61440, 2^30 - 1]

/-- `mm_checkheap`: prologue and epilogue checks, the block sweep, the
fourteen list checks, and the free-count comparison. -/
def mm_checkheap (st : Heap) : List String :=
  let fuel := list_fuel st
  let e1 := (if ¬ alignedP st.heap_listp then ["prologue alignment error"] else []) ++
    (if GET_SIZE st.mem st.heap_listp ≠ DSIZE then ["prologue header size error"] else []) ++
    (if GET_ALLOC st.mem st.heap_listp ≠ 1 then ["prologue header allocate error"] else []) ++
    (if GET_SIZE st.mem (st.heap_listp - WSIZE) ≠ DSIZE
      then ["prologue header size error"] else []) ++
    (if GET_ALLOC st.mem (st.heap_listp - WSIZE) ≠ 1
      then ["prologue header allocate error"] else [])
  let e2 := (if GET_SIZE st.mem (mem_heap_hi st - 3) ≠ 0 then ["epilogue size error"] else []) ++
    (if GET_ALLOC st.mem (mem_heap_hi st - 3) ≠ 1 then ["epilogue allocate error"] else [])
  let r3 := check_heap_loop st fuel st.heap_listp
  let r4 := (List.range SEG_NUM).foldl
    (fun (acc : List String × Nat) i =>
      let listp := st.seg_list_start + i * DSIZE
      let r := check_list st fuel listp (sizes_arr.getD i 0) (sizes_arr.getD (i+1) 0)
      (acc.1 ++ r.1, acc.2 + r.2))
    ([], 0)
  let e5 := if r4.2 ≠ r3.2 then ["free blocks number not match"] else []
  e1 ++ e2 ++ r3.1 ++ r4.1 ++ e5

/-! ### Spec-side functions used to state the claims -/

/-- Rounding up to a multiple, as the spec writes `round_up(x, a)`. -/
def round_up (x a : Nat) : Nat := (x + a - 1) / a * a

/-! ### Concrete heap states used by counterexamples and witnesses -/

/-- A fresh process with a 4 KiB raw-heap budget. -/
def heap0 : Heap := initialHeap (BASEADDR + 4096)

/-- After a successful `mm_init`: directory, prologue, epilogue and one
free 464-byte chunk at `BASEADDR + 128`. -/
def heapInit : Heap := (mm_init heap0).1

/-- After `malloc(12)` on `heapInit`: a 16-byte allocated block at
`BASEADDR + 128`, a 448-byte free block at `BASEADDR + 144`. -/
def heapA : Heap := (malloc heapInit 12).1

/-- After `malloc(456)` on `heapInit`: the whole 464-byte chunk is
allocated, the epilogue's prev-alloc bit is set. -/
def heapB : Heap := (malloc heapInit 456).1

/-- A successful init that exhausted the raw heap: any further extension
fails. -/
def heapFull : Heap := (mm_init (initialHeap (BASEADDR + 592))).1

/-- `heapInit` with the prologue header and footer rewritten to encode
size 16 instead of the size 8 the source writes. -/
def heapProl16 : Heap :=
  { heapInit with
    mem :=
      put32 (put32 heapInit.mem (HDRP heapInit.heap_listp) (PACK 16 1))
        heapInit.heap_listp (PACK 16 1) }

/-- A second `malloc(12)` on `heapA`: two 16-byte allocated blocks at
`BASEADDR + 128` and `BASEADDR + 144`, a 432-byte free block after them. -/
def heapC4 : Heap := (malloc heapA 12).1

/-- `heapB` with the block at `BASEADDR + 128` turned back into a free
464-byte block (header and footer rewritten) that is in no list: a
detached free block for exercising `add_free_block`/`remove_free_block`. -/
def heapC10 : Heap :=
  { heapB with
    mem :=
      put32 (put32 heapB.mem (BASEADDR + 124) (PACK 464 2))
        (BASEADDR + 128 + 464 - 8) (PACK 464 0) }

/-- The heap produced by the successful `calloc(2, 3)` on `heapInit`. -/
def heapC5ok : Heap :=
  match calloc heapInit 2 3 with
  | .ok (st, _) => st
  | .error _ => heapInit

/-! ## Theorems -/

/-! ### Helper lemmas about the checker's messages -/

theorem mem_ite_one {c : Prop} [Decidable c] {x s : String}
    (h : x ∈ (if c then [s] else [])) : x = s := by
  by_cases hc : c
  · rw [if_pos hc] at h; simpa using h
  · rw [if_neg hc] at h; simp at h

theorem mem_ite_nil {α : Type} {c : Prop} [Decidable c] {x : α} {s : List α}
    (h : x ∈ (if c then s else [])) : x ∈ s := by
  by_cases hc : c
  · rwa [if_pos hc] at h
  · rw [if_neg hc] at h; simp at h

theorem check_heap_loop_succ_fst (st : Heap) (n ptr : Nat) :
    (check_heap_loop st (n+1) ptr).1 =
      if 0 < GET_SIZE st.mem (HDRP ptr) then
        check_block st ptr ++
        (if GET_ALLOC st.mem (HDRP ptr) ≠ GET_PREV_ALLOC st.mem (NEXT_BLKP st.mem ptr) / 2
          then ["allocate flag error of next block"] else []) ++
        (if (GET_ALLOC st.mem (HDRP ptr) ||| GET_ALLOC st.mem (HDRP (NEXT_BLKP st.mem ptr))) = 0
          then ["two consecutive free blocks exists"] else []) ++
        (check_heap_loop st n (NEXT_BLKP st.mem ptr)).1
      else [] := by
  rw [check_heap_loop]
  dsimp only
  split_ifs <;> rfl

theorem pss_not_mem_check_block (st : Heap) (p : Nat) :
    "prologue header size error" ∉ check_block st p := by
  intro h
  simp only [check_block, List.mem_append] at h
  rcases h with ((h | h) | h) | h <;> exact absurd (mem_ite_one h) (by decide)

theorem pss_not_mem_check_heap_loop (st : Heap) :
    ∀ fuel ptr, "prologue header size error" ∉ (check_heap_loop st fuel ptr).1 := by
  intro fuel
  induction fuel with
  | zero => intro ptr; simp [check_heap_loop]
  | succ n ih =>
    intro ptr h
    rw [check_heap_loop_succ_fst] at h
    replace h := mem_ite_nil h
    simp only [List.mem_append] at h
    rcases h with ((h | h) | h) | h
    · exact pss_not_mem_check_block st ptr h
    · exact absurd (mem_ite_one h) (by decide)
    · exact absurd (mem_ite_one h) (by decide)
    · exact ih _ h

theorem check_list_loop_succ_fst (st : Heap) (lo hi n bp : Nat) :
    (check_list_loop st lo hi (n+1) bp).1 =
      if GET_NEXT st.mem bp ≠ 0 then
        (if OFFSET_REAL (GET_NEXT st.mem bp) = 0 then
          ((if ¬ alignedP bp then ["not aligned correctly"] else []) ++
            (if ¬ in_heap st bp then ["block out of heap"] else [])) ++
          (if GET_SIZE st.mem (HDRP bp) < lo ∨ hi ≤ GET_SIZE st.mem (HDRP bp)
            then ["free block falls in wrong segregated list"] else []) ++
          (check_list_loop st lo hi n bp).1
        else
          ((if ¬ alignedP bp then ["not aligned correctly"] else []) ++
            (if ¬ in_heap st bp then ["block out of heap"] else [])) ++
          (if GET_SIZE st.mem (HDRP bp) < lo ∨ hi ≤ GET_SIZE st.mem (HDRP bp)
            then ["free block falls in wrong segregated list"] else []) ++
          (if GET_PREV st.mem (OFFSET_REAL (GET_NEXT st.mem bp)) ≠ REAL_OFFSET bp
            then ["next/previous pointers are not consistent"] else []) ++
          (check_list_loop st lo hi n (OFFSET_REAL (GET_NEXT st.mem bp))).1)
      else [] := by
  rw [check_list_loop]
  dsimp only
  split_ifs <;> rfl

theorem pss_not_mem_check_list_loop (st : Heap) (lo hi : Nat) :
    ∀ fuel bp, "prologue header size error" ∉ (check_list_loop st lo hi fuel bp).1 := by
  intro fuel
  induction fuel with
  | zero => intro bp; simp [check_list_loop]
  | succ n ih =>
    intro bp h
    rw [check_list_loop_succ_fst] at h
    replace h := mem_ite_nil h
    by_cases h0 : OFFSET_REAL (GET_NEXT st.mem bp) = 0
    · rw [if_pos h0] at h
      simp only [List.mem_append] at h
      rcases h with ((h | h) | h) | h
      · exact absurd (mem_ite_one h) (by decide)
      · exact absurd (mem_ite_one h) (by decide)
      · exact absurd (mem_ite_one h) (by decide)
      · exact ih _ h
    · rw [if_neg h0] at h
      simp only [List.mem_append] at h
      rcases h with (((h | h) | h) | h) | h
      · exact absurd (mem_ite_one h) (by decide)
      · exact absurd (mem_ite_one h) (by decide)
      · exact absurd (mem_ite_one h) (by decide)
      · exact absurd (mem_ite_one h) (by decide)
      · exact ih _ h

theorem pss_not_mem_check_list (st : Heap) (fuel listp lo hi : Nat) :
    "prologue header size error" ∉ (check_list st fuel listp lo hi).1 := by
  intro h
  rw [check_list] at h
  split_ifs at h with h0
  · simp at h
  · exact pss_not_mem_check_list_loop st lo hi fuel _ h

theorem pss_mem_checkheap_iff (st : Heap) :
    "prologue header size error" ∈ mm_checkheap st ↔
      (GET_SIZE st.mem st.heap_listp ≠ DSIZE ∨
       GET_SIZE st.mem (st.heap_listp - WSIZE) ≠ DSIZE) := by
  have h4 : ∀ (l : List Nat) (acc : List String × Nat),
      "prologue header size error" ∉ acc.1 →
      "prologue header size error" ∉ (l.foldl
        (fun (acc : List String × Nat) i =>
          let listp := st.seg_list_start + i * DSIZE
          let r := check_list st (list_fuel st) listp (sizes_arr.getD i 0)
            (sizes_arr.getD (i+1) 0)
          (acc.1 ++ r.1, acc.2 + r.2)) acc).1 := by
    intro l
    induction l with
    | nil => intro acc h; exact h
    | cons x xs ih =>
      intro acc h
      refine ih _ ?_
      simp only [List.mem_append]
      rintro (h1 | h1)
      · exact h h1
      · exact pss_not_mem_check_list st _ _ _ _ h1
  constructor
  · intro h
    simp only [mm_checkheap, List.mem_append] at h
    rcases h with ((((((((h | h) | h) | h) | h) | (h | h)) | h) | h) | h)
    · exact absurd (mem_ite_one h) (by decide)
    · left; by_contra hc; rw [if_neg (not_ne_iff.mpr hc)] at h; simp at h
    · exact absurd (mem_ite_one h) (by decide)
    · right; by_contra hc; rw [if_neg (not_ne_iff.mpr hc)] at h; simp at h
    · exact absurd (mem_ite_one h) (by decide)
    · exact absurd (mem_ite_one h) (by decide)
    · exact absurd (mem_ite_one h) (by decide)
    · exact absurd h (pss_not_mem_check_heap_loop st _ _)
    · exact absurd h (h4 _ _ (by simp))
    · exact absurd (mem_ite_one h) (by decide)
  · intro h
    simp only [mm_checkheap, List.mem_append]
    rcases h with h | h
    · rw [if_pos h]; simp
    · rw [if_pos h]; simp

theorem wrong_size_check_block_iff (st : Heap) (p : Nat) :
    "wrong size of block" ∈ check_block st p ↔
      (GET_SIZE st.mem (HDRP p) < 2 * DSIZE ∧ p ≠ st.heap_listp) := by
  constructor
  · intro h
    simp only [check_block, List.mem_append] at h
    rcases h with ((h | h) | h) | h
    · exact absurd (mem_ite_one h) (by decide)
    · exact absurd (mem_ite_one h) (by decide)
    · by_contra hc; rw [if_neg hc] at h; simp at h
    · exact absurd (mem_ite_one h) (by decide)
  · intro h
    simp only [check_block, List.mem_append]
    rw [if_pos h]; simp

/-! ### Claim C9 -/

/-- C9: the conditional in `extend_heap` that reads the uninitialized
`size` (when the preceding block is free) is dead code: for every value
`junk` of the uninitialized variable, every heap state and every `words`
argument, the literal source translation `extend_heap_src` returns
exactly what the variant without that conditional returns, because
`size` is unconditionally reassigned from `words` before any other use. -/
theorem C9_thm : ∀ (junk : Nat) (st : Heap) (words : Nat),
    extend_heap_src junk st words = extend_heap st words := by
  intro junk st words
  rfl

/-! ### Claim C2 -/

/-- C2 counterexample: on the uninitialized heap (`heap_listp = 0`),
`malloc(0)` runs `mm_init` before the `size == 0` test, so it returns
none but grows the heap from `BASEADDR` to `BASEADDR + 592` — the claim
"for every heap state, including the uninitialized state, `malloc(0)`
has no side effects and the heap does not grow" is false. -/
theorem C2_cex :
    (malloc heap0 0).2 = none ∧
    heap0.brk = BASEADDR ∧
    (malloc heap0 0).1.brk = BASEADDR + 592 ∧
    (malloc heap0 0).1.brk ≠ heap0.brk := by
  refine ⟨by decide, by decide, by decide, by decide⟩

/-- C2 (amended): on every heap state where the allocator has been
initialized (`heap_listp ≠ 0`), `malloc(0)` returns none and the state —
memory, bounds, free lists, globals — is unchanged; on the uninitialized
state `malloc(0)` first runs `mm_init` (growing the heap) and then
returns none. -/
theorem C2_thm (st : Heap) (h : st.heap_listp ≠ 0) : malloc st 0 = (st, none) := by
  unfold malloc
  simp [h]

/-- Witness for C2: the initialized heap `heapInit`. -/
theorem C2_wit : heapInit.heap_listp ≠ 0 ∧ malloc heapInit 0 = (heapInit, none) :=
  ⟨by decide, C2_thm heapInit (by decide)⟩

/-! ### Claim C6 -/

/-- C6 counterexample: after a successful init the prologue header
encodes size 8 (`PACK(DSIZE,1) = 9`), not 16; and on a heap whose
prologue header and footer are rewritten to encode size 16, the heap
checker *reports* a prologue size error — so the checker requires size
8, not 16 as the claim states. -/
theorem C6_cex :
    GET_SIZE heapInit.mem (HDRP heapInit.heap_listp) = 8 ∧
    (8 : Nat) ≠ 16 ∧
    GET_SIZE heapProl16.mem (HDRP heapProl16.heap_listp) = 16 ∧
    "prologue header size error" ∈ mm_checkheap heapProl16 ∧
    "prologue header size error" ∉ mm_checkheap heapInit := by
  refine ⟨by decide, by decide, by decide, by decide, by decide⟩

/-- C6 (amended): after a successful init the prologue header and footer
both encode size 8 with the allocated bit set (`PACK(8,1) = 9`); the
heap checker reports a prologue size error exactly when the word at
`heap_listp` or at `heap_listp - 4` does not have size field 8; the
checker's minimum-size check (`size ≥ 16`) exempts the prologue; after
init the only other block (the free chunk) has size 464 ≥ 16; and the
checker accepts the post-init heap. -/
theorem C6_thm :
    (mm_init heap0).2 = 0 ∧
    get32 heapInit.mem (HDRP heapInit.heap_listp) = PACK 8 1 ∧
    get32 heapInit.mem heapInit.heap_listp = PACK 8 1 ∧
    GET_ALLOC heapInit.mem (HDRP heapInit.heap_listp) = 1 ∧
    (∀ st : Heap, "prologue header size error" ∈ mm_checkheap st ↔
      (GET_SIZE st.mem st.heap_listp ≠ 8 ∨ GET_SIZE st.mem (st.heap_listp - 4) ≠ 8)) ∧
    (∀ (st : Heap) (p : Nat), "wrong size of block" ∈ check_block st p ↔
      (GET_SIZE st.mem (HDRP p) < 16 ∧ p ≠ st.heap_listp)) ∧
    GET_SIZE heapInit.mem (BASEADDR + 124) = 464 ∧
    mm_checkheap heapInit = [] := by
  refine ⟨by decide, by decide, by decide, by decide, ?_, ?_, by decide, by decide⟩
  · intro st; exact pss_mem_checkheap_iff st
  · intro st p; exact wrong_size_check_block_iff st p

/-! ### Claim C5 -/

/-- C5 counterexample: on a heap whose raw-heap budget is exhausted,
`calloc(1, 600)` fails to allocate and then passes the null pointer to
`memset` with a nonzero length — a null dereference (modelled as
`Except.error`), not a normal "none" return. The claim that the
allocator never aborts and all failures manifest as none returns is
false for `calloc`. -/
theorem C5_cex : callocAborts heapFull 1 600 = true := by decide

/-- C5 (amended): `calloc(k, n)` computes `bytes = k·n mod 2^64` (the
multiplication can wrap). It aborts on a null-pointer `memset` exactly
when the inner `malloc(bytes)` fails and `bytes ≠ 0`; whenever it
returns a block, the first `bytes` bytes of that block are all zero. -/
theorem C5_thm (st : Heap) (nmemb size : Nat) :
    (calloc st nmemb size = .error () ↔
      ((malloc st ((nmemb * size) % 2^64)).2 = none ∧ (nmemb * size) % 2^64 ≠ 0)) ∧
    (∀ (st1 : Heap) (q : Nat), calloc st nmemb size = .ok (st1, some q) →
      ∀ i, i < (nmemb * size) % 2^64 → st1.mem (q + i) = 0) := by
  rcases hm : malloc st ((nmemb * size) % 2^64) with ⟨st2, r⟩
  constructor
  · cases r with
    | none =>
      by_cases h : (nmemb * size) % 2^64 = 0
      · simp only [calloc, hm, if_pos h]
        constructor
        · intro hc; exact absurd hc (by simp)
        · rintro ⟨h1, h2⟩; omega
      · simp only [calloc, hm, if_neg h]
        constructor
        · intro hc; refine ⟨trivial, ?_⟩; omega
        · intro hc; trivial
    | some p =>
      simp only [calloc, hm]
      constructor
      · intro hc; exact absurd hc (by simp)
      · rintro ⟨h1, h2⟩; simp at h1
  · intro st1 q hok i hi
    cases r with
    | none =>
      by_cases h : (nmemb * size) % 2^64 = 0
      · simp only [calloc, hm, if_pos h] at hok
        simp at hok
      · simp only [calloc, hm, if_neg h] at hok
        exact absurd hok (by simp)
    | some p =>
      simp only [calloc, hm, Except.ok.injEq, Prod.mk.injEq] at hok
      obtain ⟨hst, hq⟩ := hok
      injection hq with hq2
      subst hq2
      rw [← hst]
      show memset st2.mem p 0 ((nmemb * size) % 2^64) (p + i) = 0
      simp only [memset]
      rw [if_pos ⟨Nat.le_add_right _ _, by omega⟩]

/-- Witness for C5: the successful `calloc(2, 3)` on `heapInit` returns
the block at `BASEADDR + 128` whose first byte is zero. -/
theorem C5_wit :
    (0 : Nat) < (2 * 3) % 2^64 ∧ heapC5ok.mem (BASEADDR + 128 + 0) = 0 :=
  ⟨by decide, (C5_thm heapInit 2 3).2 heapC5ok (BASEADDR + 128) rfl 0 (by decide)⟩

/-! ### Claim C3 (counterexample part; the amended theorem is below) -/

/-- C3 counterexample: on `heapB` (heap ending in an allocated block),
`extend_heap(1)` succeeds and creates a free block whose header size
field is `max(8, round_up(1·4, 8)) = 8`, not `max(16, round_up(1·4, 8))
= 16` as the claim states: the source floors the size at `DSIZE = 8`,
not at 16.  The block, being smaller than 16 bytes, is not inserted into
any list (its class-0 directory slot stays empty). -/
theorem C3_cex :
    (extend_heap heapB 1).2 = some (BASEADDR + 592) ∧
    GET_SIZE (extend_heap heapB 1).1.mem (HDRP (BASEADDR + 592)) = 8 ∧
    max 16 (round_up (1 * 4) 8) = 16 ∧
    (8 : Nat) ≠ 16 ∧
    get64 (extend_heap heapB 1).1.mem (BASEADDR + seg_index 8 * 8) = 0 := by
  refine ⟨by decide, by decide, by decide, by decide, by decide⟩

/-! ### Claim C4 (counterexample part; the amended theorem is below) -/

/-- C4 counterexample: on `heapA`, the block `p = BASEADDR + 128` has
block size 16, hence payload size 12.  `realloc(p, 16)` internally calls
`malloc(16)`, which returns `q = BASEADDR + 144` with byte `q + 12`
equal to 0; the claim says the copy moves exactly `min(16, 12) = 12`
bytes, which would leave byte `q + 12` at 0.  The source instead copies
`min(16, GET_SIZE(HDRP(p))) = 16` bytes: after `realloc`, byte `q + 12`
holds 27, the byte the intermediate state held at `p + 12` (the header
of the following block).  So "copies exactly min(n, payload_size(p))
bytes" is false. -/
theorem C4_cex :
    GET_SIZE heapA.mem (HDRP (BASEADDR + 128)) = 16 ∧
    (realloc heapA (BASEADDR + 128) 16).2 = some (BASEADDR + 144) ∧
    (malloc heapA 16).2 = some (BASEADDR + 144) ∧
    (malloc heapA 16).1.mem (BASEADDR + 144 + 12) = 0 ∧
    (malloc heapA 16).1.mem (BASEADDR + 128 + 12) = 27 ∧
    (realloc heapA (BASEADDR + 128) 16).1.mem (BASEADDR + 144 + 12) = 27 ∧
    (27 : Nat) ≠ 0 := by
  refine ⟨by decide, by decide, by decide, by decide, by decide, by decide, by decide⟩


/-! ### Bit-level arithmetic lemmas -/

/-- Splitting a modulus by a factor of two. -/
theorem mod_mul_two (x m : Nat) : x % (m * 2) = 2 * ((x / 2) % m) + x % 2 := by
  rcases Nat.eq_zero_or_pos m with hm | hm
  · subst hm
    simp [Nat.mod_zero]
    omega
  · have h0 : x % (m * 2) = (2 * (x / 2) + x % 2) % (2 * m) := by
      rw [Nat.div_add_mod, Nat.mul_comm]
    have h1 : 2 * (x / 2) % (2 * m) = 2 * ((x / 2) % m) := Nat.mul_mod_mul_left 2 (x/2) m
    have h2 : (x % 2) % (2 * m) = x % 2 := Nat.mod_eq_of_lt (by omega)
    have h3 : (x / 2) % m < m := Nat.mod_lt _ hm
    rw [h0, Nat.add_mod, h1, h2, Nat.mod_eq_of_lt (by omega)]

/-- Or-ing a value whose low `k` bits are clear with a value below `2^k`
is addition. -/
theorem lor_eq_add (k : Nat) : ∀ s a : Nat, s % 2^k = 0 → a < 2^k → s ||| a = s + a := by
  induction k with
  | zero =>
    intro s a _ ha
    interval_cases a
    simp
  | succ k ih =>
    intro s a hs ha
    have hpk : (2:Nat)^(k+1) = 2^k * 2 := by ring
    rw [hpk] at hs ha
    have hms := mod_mul_two s (2^k)
    have hma := mod_mul_two a (2^k)
    have h2k : (1:Nat) ≤ 2^k := Nat.one_le_two_pow
    have hd : (s ||| a) / 2 = s / 2 + a / 2 := by
      rw [Nat.or_div_two]
      exact ih (s/2) (a/2) (by omega) (by omega)
    have hm : (s ||| a) % 2 = a % 2 := by
      rcases Nat.mod_two_eq_zero_or_one a with h | h
      · have h5 : ¬((s ||| a) % 2 = 1) := by
          rw [Nat.or_mod_two_eq_one]
          omega
        omega
      · have h5 : (s ||| a) % 2 = 1 := by
          rw [Nat.or_mod_two_eq_one]
          omega
        omega
    omega

/-- And with `2`: extracts bit 1. -/
theorem land_two (x : Nat) : x &&& 2 = x % 4 - x % 2 := by
  have hd : (x &&& 2) / 2 = x / 2 % 2 := by
    rw [Nat.and_div_two]
    exact Nat.and_one_is_mod (x/2)
  have hm : (x &&& 2) % 2 = 0 := by
    rcases Nat.mod_two_eq_zero_or_one (x &&& 2) with h | h
    · exact h
    · rw [Nat.and_mod_two_eq_one] at h
      omega
  omega

/-- Or with `2`: sets bit 1. -/
theorem lor_two (x : Nat) : x ||| 2 = x + 2 - (x % 4 - x % 2) := by
  have hone : ∀ y : Nat, y ||| 1 = y + 1 - y % 2 := by
    intro y
    have hd : (y ||| 1) / 2 = y / 2 := by
      rw [Nat.or_div_two]
      simp
    have hm : (y ||| 1) % 2 = 1 := by
      rw [Nat.or_mod_two_eq_one]
      omega
    omega
  have hd : (x ||| 2) / 2 = x / 2 + 1 - x / 2 % 2 := by
    rw [Nat.or_div_two]
    show x / 2 ||| (1 : Nat) = _
    rw [hone (x/2)]
  have hm : (x ||| 2) % 2 = x % 2 := by
    rcases Nat.mod_two_eq_zero_or_one x with h | h
    · have h5 : ¬((x ||| 2) % 2 = 1) := by
        rw [Nat.or_mod_two_eq_one]
        omega
      omega
    · have h5 : (x ||| 2) % 2 = 1 := by
        rw [Nat.or_mod_two_eq_one]
        omega
      omega
  omega

/-- Masking with `2^n - 2^k` (ones from bit `k` up) clears the low `k`
bits of a value below `2^n`. -/
theorem land_mask (k : Nat) : ∀ n v : Nat, k ≤ n → v < 2^n →
    v &&& (2^n - 2^k) = v - v % 2^k := by
  induction k with
  | zero =>
    intro n v _ hv
    have h0 : (2:Nat)^0 = 1 := rfl
    rw [h0]
    have h1 : v &&& (2^n - 1) = v % 2^n := Nat.and_pow_two_sub_one_eq_mod v n
    have h2 : v % 2^n = v := Nat.mod_eq_of_lt hv
    omega
  | succ k ih =>
    intro n v hk hv
    obtain ⟨n', rfl⟩ : ∃ n', n = n' + 1 := ⟨n - 1, by omega⟩
    have hpow : (2:Nat)^(n'+1) = 2^n' * 2 := by ring
    have hpk : (2:Nat)^(k+1) = 2^k * 2 := by ring
    have h2k : (1:Nat) ≤ 2^k := Nat.one_le_two_pow
    have h2n : (2:Nat)^k ≤ 2^n' := Nat.pow_le_pow_right (by omega) (by omega)
    have hmv := mod_mul_two v (2^k)
    have hv2 : v < 2^n' * 2 := by omega
    have hMdiv : (2^n' * 2 - 2^k * 2) / 2 = 2^n' - 2^k := by omega
    have hd : (v &&& (2^n' * 2 - 2^k * 2)) / 2 = v / 2 - (v / 2) % 2^k := by
      rw [Nat.and_div_two, hMdiv]
      exact ih n' (v/2) (by omega) (by omega)
    have hm : (v &&& (2^n' * 2 - 2^k * 2)) % 2 = 0 := by
      rcases Nat.mod_two_eq_zero_or_one (v &&& (2^n' * 2 - 2^k * 2)) with h | h
      · exact h
      · rw [Nat.and_mod_two_eq_one] at h
        omega
    have key : v &&& (2^n' * 2 - 2^k * 2) = v - v % (2^k * 2) := by omega
    rw [hpow, hpk]
    exact key

/-- Masking with `2^n - 1 - 2^k` clears exactly bit `k` of a value below
`2^n`. -/
theorem land_clear_bit (n k v : Nat) (hk : k + 1 ≤ n) (hv : v < 2^n) :
    v &&& (2^n - 1 - 2^k) = v - v % 2^(k+1) + v % 2^k := by
  have h2k : (1:Nat) ≤ 2^k := Nat.one_le_two_pow
  have hpk : (2:Nat)^(k+1) = 2^k * 2 := by ring
  have hkk : (2:Nat)^(k+1) ≤ 2^n := Nat.pow_le_pow_right (by omega) hk
  have hdvd1 : (2:Nat)^(k+1) ∣ 2^n := pow_dvd_pow 2 hk
  have hdvd2 : (2:Nat)^k ∣ 2^(k+1) := pow_dvd_pow 2 (by omega)
  have hsmod : ((2:Nat)^n - 2^(k+1)) % 2^k = 0 := by
    have h1 : (2:Nat)^k ∣ (2^n - 2^(k+1)) :=
      Nat.dvd_sub' (dvd_trans hdvd2 hdvd1) hdvd2
    omega
  have hmask : (2:Nat)^n - 1 - 2^k = (2^n - 2^(k+1)) ||| (2^k - 1) := by
    rw [lor_eq_add k _ _ hsmod (by omega)]
    omega
  have hvmod : (v - v % 2^(k+1)) % 2^k = 0 := by
    have h1 : (2:Nat)^(k+1) ∣ (v - v % 2^(k+1)) := Nat.dvd_sub_mod v
    have h2 : (2:Nat)^k ∣ (v - v % 2^(k+1)) := dvd_trans hdvd2 h1
    omega
  rw [hmask, Nat.and_or_distrib_left, land_mask (k+1) n v hk hv,
    Nat.and_pow_two_sub_one_eq_mod v k,
    lor_eq_add k _ _ hvmod (Nat.mod_lt v (by omega))]

/-- `GET_SIZE`-style masking: for `v < 2^32`, `v &&& 0xFFFFFFF8` is `v`
rounded down to a multiple of 8. -/
theorem land_fff8 (v : Nat) (hv : v < 4294967296) : v &&& 0xFFFFFFF8 = v - v % 8 := by
  have h := land_mask 3 32 v (by omega) (by norm_num; omega)
  norm_num at h
  exact h

/-- `free`-style bit clearing: for `v < 2^32`, `v &&& 0xFFFFFFFD` clears
bit 1. -/
theorem land_fffd (v : Nat) (hv : v < 4294967296) :
    v &&& 0xFFFFFFFD = v - v % 4 + v % 2 := by
  have h := land_clear_bit 32 1 v (by omega) (by norm_num; omega)
  norm_num at h
  exact h

/-! ### Memory access lemmas -/

theorem writeByte_at (m : Mem) (a v : Nat) : writeByte m a v a = v % 256 := if_pos rfl

theorem writeByte_ne (m : Mem) (a v x : Nat) (h : x ≠ a) : writeByte m a v x = m x :=
  if_neg h

theorem put32_frame (m : Mem) (a v x : Nat) (h : x < a ∨ a + 4 ≤ x) :
    put32 m a v x = m x := by
  unfold put32
  rw [writeByte_ne, writeByte_ne, writeByte_ne, writeByte_ne] <;> omega

theorem put32_b0 (m : Mem) (a v : Nat) : put32 m a v a = v % 256 := by
  unfold put32
  rw [writeByte_ne, writeByte_ne, writeByte_ne, writeByte_at] <;> omega

theorem put32_b1 (m : Mem) (a v : Nat) : put32 m a v (a+1) = v / 256 % 256 := by
  unfold put32
  rw [writeByte_ne, writeByte_ne, writeByte_at] <;> omega

theorem put32_b2 (m : Mem) (a v : Nat) : put32 m a v (a+2) = v / 65536 % 256 := by
  unfold put32
  rw [writeByte_ne, writeByte_at] <;> omega

theorem put32_b3 (m : Mem) (a v : Nat) : put32 m a v (a+3) = v / 16777216 % 256 := by
  unfold put32
  rw [writeByte_at]

theorem get32_put32 (m : Mem) (a v : Nat) :
    get32 (put32 m a v) a = v % 4294967296 := by
  unfold get32
  rw [put32_b0, put32_b1, put32_b2, put32_b3]
  omega

theorem get32_put32_frame (m : Mem) (a v b : Nat) (h : a + 4 ≤ b ∨ b + 4 ≤ a) :
    get32 (put32 m a v) b = get32 m b := by
  unfold get32
  rw [put32_frame, put32_frame, put32_frame, put32_frame] <;> omega

theorem put64_frame (m : Mem) (a v x : Nat) (h : x < a ∨ a + 8 ≤ x) :
    put64 m a v x = m x := by
  unfold put64
  rw [writeByte_ne, writeByte_ne, writeByte_ne, writeByte_ne, writeByte_ne, writeByte_ne,
    writeByte_ne, writeByte_ne] <;> omega

theorem put64_b0 (m : Mem) (a v : Nat) : put64 m a v a = v % 256 := by
  unfold put64
  rw [writeByte_ne, writeByte_ne, writeByte_ne, writeByte_ne, writeByte_ne, writeByte_ne,
    writeByte_ne, writeByte_at] <;> omega

theorem put64_b1 (m : Mem) (a v : Nat) : put64 m a v (a+1) = v / 256 % 256 := by
  unfold put64
  rw [writeByte_ne, writeByte_ne, writeByte_ne, writeByte_ne, writeByte_ne, writeByte_ne,
    writeByte_at] <;> omega

theorem put64_b2 (m : Mem) (a v : Nat) : put64 m a v (a+2) = v / 65536 % 256 := by
  unfold put64
  rw [writeByte_ne, writeByte_ne, writeByte_ne, writeByte_ne, writeByte_ne,
    writeByte_at] <;> omega

theorem put64_b3 (m : Mem) (a v : Nat) : put64 m a v (a+3) = v / 16777216 % 256 := by
  unfold put64
  rw [writeByte_ne, writeByte_ne, writeByte_ne, writeByte_ne, writeByte_at] <;> omega

theorem put64_b4 (m : Mem) (a v : Nat) : put64 m a v (a+4) = v / 4294967296 % 256 := by
  unfold put64
  rw [writeByte_ne, writeByte_ne, writeByte_ne, writeByte_at] <;> omega

theorem put64_b5 (m : Mem) (a v : Nat) : put64 m a v (a+5) = v / 1099511627776 % 256 := by
  unfold put64
  rw [writeByte_ne, writeByte_ne, writeByte_at] <;> omega

theorem put64_b6 (m : Mem) (a v : Nat) : put64 m a v (a+6) = v / 281474976710656 % 256 := by
  unfold put64
  rw [writeByte_ne, writeByte_at] <;> omega

theorem put64_b7 (m : Mem) (a v : Nat) :
    put64 m a v (a+7) = v / 72057594037927936 % 256 := by
  unfold put64
  rw [writeByte_at]

theorem get64_put64 (m : Mem) (a v : Nat) :
    get64 (put64 m a v) a = v % 18446744073709551616 := by
  unfold get64
  rw [put64_b0, put64_b1, put64_b2, put64_b3, put64_b4, put64_b5, put64_b6, put64_b7]
  omega

theorem get64_put64_frame (m : Mem) (a v b : Nat) (h : a + 8 ≤ b ∨ b + 8 ≤ a) :
    get64 (put64 m a v) b = get64 m b := by
  unfold get64
  rw [put64_frame, put64_frame, put64_frame, put64_frame, put64_frame, put64_frame,
    put64_frame, put64_frame] <;> omega

theorem get32_put64_frame (m : Mem) (a v b : Nat) (h : a + 8 ≤ b ∨ b + 4 ≤ a) :
    get32 (put64 m a v) b = get32 m b := by
  unfold get32
  rw [put64_frame, put64_frame, put64_frame, put64_frame] <;> omega

theorem get64_put32_frame (m : Mem) (a v b : Nat) (h : a + 4 ≤ b ∨ b + 8 ≤ a) :
    get64 (put32 m a v) b = get64 m b := by
  unfold get64
  rw [put32_frame, put32_frame, put32_frame, put32_frame, put32_frame, put32_frame,
    put32_frame, put32_frame] <;> omega

theorem get32_lt (m : Mem) (a : Nat) (hb : ∀ i, i < 4 → m (a+i) < 256) :
    get32 m a < 4294967296 := by
  have h0 := hb 0 (by omega)
  have h1 := hb 1 (by omega)
  have h2 := hb 2 (by omega)
  have h3 := hb 3 (by omega)
  simp only [Nat.add_zero] at h0
  unfold get32
  omega

theorem put32_restore (m M : Mem) (a x : Nat) (hb : ∀ i, i < 4 → m (a+i) < 256)
    (hx : a ≤ x ∧ x < a + 4) : put32 M a (get32 m a) x = m x := by
  have h0 := hb 0 (by omega)
  have h1 := hb 1 (by omega)
  have h2 := hb 2 (by omega)
  have h3 := hb 3 (by omega)
  simp only [Nat.add_zero] at h0
  have hx4 : x = a ∨ x = a+1 ∨ x = a+2 ∨ x = a+3 := by omega
  unfold get32
  rcases hx4 with h | h | h | h <;> subst h
  · rw [put32_b0]; omega
  · rw [put32_b1]; omega
  · rw [put32_b2]; omega
  · rw [put32_b3]; omega

theorem put64_restore (m M : Mem) (a x : Nat) (hb : ∀ i, i < 8 → m (a+i) < 256)
    (hx : a ≤ x ∧ x < a + 8) : put64 M a (get64 m a) x = m x := by
  have h0 := hb 0 (by omega)
  have h1 := hb 1 (by omega)
  have h2 := hb 2 (by omega)
  have h3 := hb 3 (by omega)
  have h4 := hb 4 (by omega)
  have h5 := hb 5 (by omega)
  have h6 := hb 6 (by omega)
  have h7 := hb 7 (by omega)
  simp only [Nat.add_zero] at h0
  have hx8 : x = a ∨ x = a+1 ∨ x = a+2 ∨ x = a+3 ∨ x = a+4 ∨ x = a+5 ∨ x = a+6 ∨
    x = a+7 := by omega
  unfold get64
  rcases hx8 with h | h | h | h | h | h | h | h <;> subst h
  · rw [put64_b0]; omega
  · rw [put64_b1]; omega
  · rw [put64_b2]; omega
  · rw [put64_b3]; omega
  · rw [put64_b4]; omega
  · rw [put64_b5]; omega
  · rw [put64_b6]; omega
  · rw [put64_b7]; omega

theorem put64_zero_at (M : Mem) (a x : Nat) (hx : a ≤ x ∧ x < a + 8) :
    put64 M a 0 x = 0 := by
  have hx8 : x = a ∨ x = a+1 ∨ x = a+2 ∨ x = a+3 ∨ x = a+4 ∨ x = a+5 ∨ x = a+6 ∨
    x = a+7 := by omega
  rcases hx8 with h | h | h | h | h | h | h | h <;> subst h
  · rw [put64_b0]
  · rw [put64_b1]
  · rw [put64_b2]
  · rw [put64_b3]
  · rw [put64_b4]
  · rw [put64_b5]
  · rw [put64_b6]
  · rw [put64_b7]

theorem put32_zero_at (M : Mem) (a x : Nat) (hx : a ≤ x ∧ x < a + 4) :
    put32 M a 0 x = 0 := by
  have hx4 : x = a ∨ x = a+1 ∨ x = a+2 ∨ x = a+3 := by omega
  rcases hx4 with h | h | h | h <;> subst h
  · rw [put32_b0]
  · rw [put32_b1]
  · rw [put32_b2]
  · rw [put32_b3]

theorem get64_zero_bytes (m : Mem) (a : Nat) (hb : ∀ i, i < 8 → m (a+i) < 256)
    (h : get64 m a = 0) : ∀ i, i < 8 → m (a+i) = 0 := by
  have h0 := hb 0 (by omega)
  have h1 := hb 1 (by omega)
  have h2 := hb 2 (by omega)
  have h3 := hb 3 (by omega)
  have h4 := hb 4 (by omega)
  have h5 := hb 5 (by omega)
  have h6 := hb 6 (by omega)
  have h7 := hb 7 (by omega)
  simp only [Nat.add_zero] at h0
  unfold get64 at h
  intro i hi
  have hi8 : i = 0 ∨ i = 1 ∨ i = 2 ∨ i = 3 ∨ i = 4 ∨ i = 5 ∨ i = 6 ∨ i = 7 := by omega
  rcases hi8 with hh | hh | hh | hh | hh | hh | hh | hh <;> subst hh <;> first
    | (simp only [Nat.add_zero]; omega)
    | omega

theorem get32_zero_bytes (m : Mem) (a : Nat) (hb : ∀ i, i < 4 → m (a+i) < 256)
    (h : get32 m a = 0) : ∀ i, i < 4 → m (a+i) = 0 := by
  have h0 := hb 0 (by omega)
  have h1 := hb 1 (by omega)
  have h2 := hb 2 (by omega)
  have h3 := hb 3 (by omega)
  simp only [Nat.add_zero] at h0
  unfold get32 at h
  intro i hi
  have hi4 : i = 0 ∨ i = 1 ∨ i = 2 ∨ i = 3 := by omega
  rcases hi4 with hh | hh | hh | hh <;> subst hh <;> first
    | (simp only [Nat.add_zero]; omega)
    | omega

/-! ### Shape lemmas for the free-list operations -/

theorem add_free_block_empty (st : Heap) (b : Nat)
    (h0 : get64 st.mem (get_seg_listp st (GET_SIZE st.mem (HDRP b))) = 0) :
    add_free_block st b =
      { st with
        mem :=
          put32 (put32 (put64 st.mem (get_seg_listp st (GET_SIZE st.mem (HDRP b))) b)
            b 0) (b + 4) 0 } := by
  unfold add_free_block
  rw [if_pos h0]
  rfl

theorem add_free_block_cons (st : Heap) (b : Nat)
    (h0 : get64 st.mem (get_seg_listp st (GET_SIZE st.mem (HDRP b))) ≠ 0) :
    add_free_block st b =
      { st with
        mem :=
          put32 (put64 (put32 (put32 st.mem b 0) (b + 4)
              (get64 st.mem (get_seg_listp st (GET_SIZE st.mem (HDRP b))) - BASEADDR))
            (get_seg_listp st (GET_SIZE st.mem (HDRP b))) b)
            (get64 st.mem (get_seg_listp st (GET_SIZE st.mem (HDRP b))))
            (b - BASEADDR) } := by
  unfold add_free_block
  rw [if_neg h0]
  rfl

theorem remove_free_block_00 (st : Heap) (p : Nat)
    (hp : GET_PREV st.mem p = 0) (hn : GET_NEXT st.mem p = 0) :
    remove_free_block st p =
      { st with
        mem := put64 st.mem (get_seg_listp st (GET_SIZE st.mem (HDRP p))) 0 } := by
  unfold remove_free_block
  rw [if_pos hp, if_pos hn]

theorem remove_free_block_0n (st : Heap) (p : Nat)
    (hp : GET_PREV st.mem p = 0) (hn : GET_NEXT st.mem p ≠ 0) :
    remove_free_block st p =
      { st with
        mem :=
          put32 (put64 st.mem (get_seg_listp st (GET_SIZE st.mem (HDRP p)))
            (GET_NEXT st.mem p + BASEADDR)) (OFFSET_REAL (GET_NEXT st.mem p)) 0 } := by
  unfold remove_free_block
  rw [if_pos hp, if_neg hn]
  rfl

theorem remove_free_block_p0 (st : Heap) (p : Nat)
    (hp : GET_PREV st.mem p ≠ 0) (hn : GET_NEXT st.mem p = 0) :
    remove_free_block st p =
      { st with
        mem := put32 st.mem (OFFSET_REAL (GET_PREV st.mem p) + 4) 0 } := by
  unfold remove_free_block
  rw [if_neg hp, if_pos hn]
  rfl

theorem remove_free_block_pn (st : Heap) (p : Nat)
    (hp : GET_PREV st.mem p ≠ 0) (hn : GET_NEXT st.mem p ≠ 0) :
    remove_free_block st p =
      { st with
        mem :=
          put32 (put32 st.mem (OFFSET_REAL (GET_NEXT st.mem p)) (GET_PREV st.mem p))
            (OFFSET_REAL (GET_PREV st.mem p) + 4) (GET_NEXT st.mem p) } := by
  unfold remove_free_block
  rw [if_neg hp, if_neg hn]
  rfl

/-- Frame property of `remove_free_block`: only the directory slot, the
predecessor's next-link and the successor's prev-link can change. -/
theorem remove_free_block_frame (st : Heap) (p x : Nat)
    (hx1 : x < get_seg_listp st (GET_SIZE st.mem (HDRP p)) ∨
      get_seg_listp st (GET_SIZE st.mem (HDRP p)) + 8 ≤ x)
    (hx2 : x < OFFSET_REAL (GET_PREV st.mem p) + 4 ∨
      OFFSET_REAL (GET_PREV st.mem p) + 8 ≤ x)
    (hx3 : x < OFFSET_REAL (GET_NEXT st.mem p) ∨
      OFFSET_REAL (GET_NEXT st.mem p) + 4 ≤ x) :
    (remove_free_block st p).mem x = st.mem x := by
  by_cases hp : GET_PREV st.mem p = 0 <;> by_cases hn : GET_NEXT st.mem p = 0
  · rw [remove_free_block_00 st p hp hn]
    exact put64_frame _ _ _ _ hx1
  · rw [remove_free_block_0n st p hp hn]
    show put32 _ _ 0 x = _
    rw [put32_frame _ _ _ _ (by omega), put64_frame _ _ _ _ hx1]
  · rw [remove_free_block_p0 st p hp hn]
    show put32 _ _ 0 x = _
    rw [put32_frame _ _ _ _ (by omega)]
  · rw [remove_free_block_pn st p hp hn]
    show put32 _ _ _ x = _
    rw [put32_frame _ _ _ _ (by omega), put32_frame _ _ _ _ (by omega)]

/-- C10: on a heap whose free lists satisfy the invariants, pushing a
detached free block `b` and immediately unlinking it restores every byte
of memory outside `b`'s own two link words — in particular all 14
directory slots and the prev/next links of every other free block — and
leaves the globals untouched. -/
theorem C10_thm (st : Heap) (b sz d h : Nat)
    (hsz : sz = GET_SIZE st.mem (HDRP b))
    (hd : d = get_seg_listp st sz)
    (hh : h = get64 st.mem d)
    (hsz16 : 16 ≤ sz)
    (hdb : d + 12 ≤ b)
    (hbdir : ∀ i, i < 8 → st.mem (d + i) < 256)
    (hhead : h = 0 ∨
      (BASEADDR < h ∧ h - BASEADDR < 4294967296 ∧ get32 st.mem h = 0 ∧
       (∀ i, i < 4 → st.mem (h + i) < 256) ∧ d + 8 ≤ h ∧
       (h + 8 ≤ b - 4 ∨ b + 8 ≤ h))) :
    (remove_free_block (add_free_block st b) b).brk = st.brk ∧
    (remove_free_block (add_free_block st b) b).heap_listp = st.heap_listp ∧
    (remove_free_block (add_free_block st b) b).seg_list_start = st.seg_list_start ∧
    ∀ x, x < b ∨ b + 8 ≤ x →
      (remove_free_block (add_free_block st b) b).mem x = st.mem x := by
  have e1 : get_seg_listp st (GET_SIZE st.mem (HDRP b)) = d := by rw [hd, hsz]
  rcases hhead with hc | hc
  · -- the class list is empty
    have h0 : get64 st.mem (get_seg_listp st (GET_SIZE st.mem (HDRP b))) = 0 := by
      rw [e1, ← hh]; exact hc
    rw [add_free_block_empty st b h0, e1]
    set m1 : Mem := put32 (put32 (put64 st.mem d b) b 0) (b + 4) 0 with hm1
    set st1 : Heap := { st with mem := m1 } with hst1
    have hr1 : get32 m1 (b - 4) = get32 st.mem (b - 4) := by
      rw [hm1]
      rw [get32_put32_frame _ _ _ _ (by omega), get32_put32_frame _ _ _ _ (by omega),
        get32_put64_frame _ _ _ _ (by omega)]
    have hprev : GET_PREV st1.mem b = 0 := by
      show get32 m1 b = 0
      rw [hm1, get32_put32_frame _ _ _ _ (by omega), get32_put32]
    have hnext : GET_NEXT st1.mem b = 0 := by
      show get32 m1 (b + 4) = 0
      rw [hm1, get32_put32]
    rw [remove_free_block_00 st1 b hprev hnext]
    have hcls : get_seg_listp st1 (GET_SIZE st1.mem (HDRP b)) = d := by
      show get_seg_listp st (GET_SIZE m1 (HDRP b)) = d
      unfold GET_SIZE HDRP
      unfold GET_SIZE HDRP at e1
      rw [hr1, e1]
    rw [hcls]
    refine ⟨rfl, rfl, rfl, ?_⟩
    intro x hx
    show put64 m1 d 0 x = st.mem x
    by_cases hxd : d ≤ x ∧ x < d + 8
    · rw [put64_zero_at _ _ _ hxd]
      have hz := get64_zero_bytes st.mem d hbdir (by rw [← hh]; exact hc) (x - d)
        (by omega)
      rw [show d + (x - d) = x by omega] at hz
      exact hz.symm
    · rw [put64_frame _ _ _ _ (by omega), hm1,
        put32_frame _ _ _ _ (by omega), put32_frame _ _ _ _ (by omega),
        put64_frame _ _ _ _ (by omega)]
  · -- the class list has head h
    obtain ⟨hB, h32, hp0, hhb, hdh, hdisj⟩ := hc
    have h0 : get64 st.mem (get_seg_listp st (GET_SIZE st.mem (HDRP b))) ≠ 0 := by
      rw [e1, ← hh]; omega
    rw [add_free_block_cons st b h0, e1, ← hh]
    set m1 : Mem := put32 (put64 (put32 (put32 st.mem b 0) (b + 4) (h - BASEADDR)) d b)
      h (b - BASEADDR) with hm1
    set st1 : Heap := { st with mem := m1 } with hst1
    have hr1 : get32 m1 (b - 4) = get32 st.mem (b - 4) := by
      rw [hm1]
      rw [get32_put32_frame _ _ _ _ (by omega), get32_put64_frame _ _ _ _ (by omega),
        get32_put32_frame _ _ _ _ (by omega), get32_put32_frame _ _ _ _ (by omega)]
    have hprev : GET_PREV st1.mem b = 0 := by
      show get32 m1 b = 0
      rw [hm1, get32_put32_frame _ _ _ _ (by omega),
        get32_put64_frame _ _ _ _ (by omega),
        get32_put32_frame _ _ _ _ (by omega), get32_put32]
    have hnextv : GET_NEXT st1.mem b = h - BASEADDR := by
      show get32 m1 (b + 4) = h - BASEADDR
      rw [hm1, get32_put32_frame _ _ _ _ (by omega),
        get32_put64_frame _ _ _ _ (by omega), get32_put32]
      omega
    have hnext : GET_NEXT st1.mem b ≠ 0 := by
      rw [hnextv]; omega
    rw [remove_free_block_0n st1 b hprev hnext]
    have hcls : get_seg_listp st1 (GET_SIZE st1.mem (HDRP b)) = d := by
      show get_seg_listp st (GET_SIZE m1 (HDRP b)) = d
      unfold GET_SIZE HDRP
      unfold GET_SIZE HDRP at e1
      rw [hr1, e1]
    rw [hcls, hnextv]
    have hor : OFFSET_REAL (h - BASEADDR) = h := by
      unfold OFFSET_REAL
      omega
    have hnb : h - BASEADDR + BASEADDR = h := by omega
    rw [hor, hnb]
    refine ⟨rfl, rfl, rfl, ?_⟩
    intro x hx
    show put32 (put64 m1 d h) h 0 x = st.mem x
    by_cases hxh : h ≤ x ∧ x < h + 4
    · rw [put32_zero_at _ _ _ hxh]
      have hz := get32_zero_bytes st.mem h hhb hp0 (x - h) (by omega)
      rw [show h + (x - h) = x by omega] at hz
      exact hz.symm
    · rw [put32_frame _ _ _ _ (by omega)]
      by_cases hxd : d ≤ x ∧ x < d + 8
      · rw [hh]
        exact put64_restore st.mem m1 d x hbdir hxd
      · rw [put64_frame _ _ _ _ (by omega), hm1,
          put32_frame _ _ _ _ (by omega), put64_frame _ _ _ _ (by omega),
          put32_frame _ _ _ _ (by omega), put32_frame _ _ _ _ (by omega)]

theorem remove_free_block_globals (st : Heap) (p : Nat) :
    (remove_free_block st p).brk = st.brk ∧
    (remove_free_block st p).limit = st.limit ∧
    (remove_free_block st p).heap_listp = st.heap_listp ∧
    (remove_free_block st p).seg_list_start = st.seg_list_start := by
  unfold remove_free_block
  dsimp only
  split_ifs <;> exact ⟨rfl, rfl, rfl, rfl⟩

theorem add_free_block_globals (st : Heap) (p : Nat) :
    (add_free_block st p).brk = st.brk ∧
    (add_free_block st p).limit = st.limit ∧
    (add_free_block st p).heap_listp = st.heap_listp ∧
    (add_free_block st p).seg_list_start = st.seg_list_start := by
  unfold add_free_block
  dsimp only
  split_ifs <;> exact ⟨rfl, rfl, rfl, rfl⟩

/-- `GET_SIZE` always returns a multiple of 8 below `2^32`, and for a
word read from byte-bounded memory it is the word rounded down. -/
theorem GET_SIZE_eq (m : Mem) (a : Nat) (hb : ∀ i, i < 4 → m (a+i) < 256) :
    GET_SIZE m a = get32 m a - get32 m a % 8 := by
  unfold GET_SIZE
  exact land_fff8 _ (get32_lt m a hb)

/-- Specialization of `lor_eq_add` to the low three bits. -/
theorem lor_eq_add8 (s a : Nat) (hs : s % 8 = 0) (ha : a < 8) : s ||| a = s + a := by
  have h8 : (2:Nat)^3 = 8 := by norm_num
  exact lor_eq_add 3 s a (by rw [h8]; exact hs) (by rw [h8]; exact ha)

theorem HDRP_eq (x : Nat) : HDRP x = x - 4 := rfl

/-- Reading back the size field of a freshly written packed header. -/
theorem GET_SIZE_put32_pack (m : Mem) (a s f : Nat) (hs : s % 8 = 0) (hf : f < 8)
    (hlt : s + f < 4294967296) : GET_SIZE (put32 m a (PACK s f)) a = s := by
  unfold GET_SIZE PACK
  rw [get32_put32, lor_eq_add8 s f hs hf, Nat.mod_eq_of_lt hlt, land_fff8 _ hlt]
  omega

theorem GET_SIZE_put32_frame (m : Mem) (a v b : Nat) (h : a + 4 ≤ b ∨ b + 4 ≤ a) :
    GET_SIZE (put32 m a v) b = GET_SIZE m b := by
  unfold GET_SIZE
  rw [get32_put32_frame _ _ _ _ h]

theorem get32_put32_pack (m : Mem) (a s f : Nat) (hs : s % 8 = 0) (hf : f < 8)
    (hlt : s + f < 4294967296) : get32 (put32 m a (PACK s f)) a = PACK s f := by
  rw [get32_put32]
  unfold PACK
  rw [lor_eq_add8 s f hs hf, Nat.mod_eq_of_lt hlt]

/-- C8: `place` on a free block of size `C = csize` with request
`asize ≤ C` splits exactly when `C - asize ≥ 16`: the first `asize`
bytes become an allocated block whose header keeps the original
prev-alloc bit, the remainder becomes a free block with header and
footer `PACK (C - asize) 2` / `PACK (C - asize) 0` pushed on its size
class list; otherwise the whole block is marked allocated and the
successor header's prev-alloc bit is set. -/
theorem C8_thm (st : Heap) (p asize : Nat) (csize pa pv nx d drem hr : Nat)
    (hcs : csize = GET_SIZE st.mem (HDRP p))
    (hpa : pa = GET_PREV_ALLOC st.mem p)
    (hpv : pv = GET_PREV st.mem p) (hnx : nx = GET_NEXT st.mem p)
    (hd : d = get_seg_listp st csize)
    (hdrem : drem = get_seg_listp st (csize - asize))
    (hhr : hr = get64 (remove_free_block st p).mem drem)
    (hhdr : ∀ i, i < 4 → st.mem (HDRP p + i) < 256)
    (hsucc : ∀ i, i < 4 → st.mem (p + csize - 4 + i) < 256)
    (hasz : 16 ≤ asize) (hasz8 : asize % 8 = 0) (hac : asize ≤ csize)
    (hp64 : p + csize < 18446744073709551616)
    (hWd : d + 8 ≤ p - 4) (hWdrem : drem + 8 ≤ p - 4)
    (hWpv : OFFSET_REAL pv + 8 ≤ p - 4 ∨ p + csize ≤ OFFSET_REAL pv)
    (hWnx : OFFSET_REAL nx + 4 ≤ p - 4 ∨ p + csize ≤ OFFSET_REAL nx)
    (hhrC : hr = 0 ∨ ((hr + 4 ≤ p - 4 ∨ p + csize ≤ hr) ∧ drem + 8 ≤ hr)) :
    (16 ≤ csize - asize →
      get32 (place st p asize).mem (p - 4) = PACK asize (pa ||| 1) ∧
      get32 (place st p asize).mem (p + asize - 4) = PACK (csize - asize) 2 ∧
      get32 (place st p asize).mem (p + csize - 8) = PACK (csize - asize) 0 ∧
      get64 (place st p asize).mem drem = p + asize) ∧
    (csize - asize < 16 →
      get32 (place st p asize).mem (p - 4) = PACK csize (pa ||| 1) ∧
      get32 (place st p asize).mem (p + csize - 4) =
        get32 st.mem (p + csize - 4) ||| 2) := by
  subst hdrem
  subst hhr hcs hpa hpv hnx hd
  simp only [HDRP_eq] at *
  have hpge : 8 ≤ p - 4 := by omega
  have hp12 : 12 ≤ p := by omega
  have hcsz : GET_SIZE st.mem (p - 4) % 8 = 0 ∧
      GET_SIZE st.mem (p - 4) ≤ 4294967288 := by
    have h1 := GET_SIZE_eq st.mem (p - 4) hhdr
    have h2 := get32_lt st.mem (p - 4) hhdr
    omega
  have hpa2 : GET_PREV_ALLOC st.mem p = 0 ∨ GET_PREV_ALLOC st.mem p = 2 := by
    unfold GET_PREV_ALLOC
    rw [land_two]
    omega
  have hf : GET_PREV_ALLOC st.mem p ||| 1 = GET_PREV_ALLOC st.mem p + 1 := by
    rcases hpa2 with h | h <;> rw [h] <;> decide
  have hfr : ∀ y, p - 4 ≤ y → y < p + GET_SIZE st.mem (p - 4) →
      (remove_free_block st p).mem y = st.mem y := by
    intro y h1 h2
    refine remove_free_block_frame st p y ?_ ?_ ?_
    · simp only [HDRP_eq]
      omega
    · rcases hWpv with h | h <;> omega
    · rcases hWnx with h | h <;> omega
  have hfr32 : ∀ y, p - 4 ≤ y → y + 4 ≤ p + GET_SIZE st.mem (p - 4) →
      get32 (remove_free_block st p).mem y = get32 st.mem y := by
    intro y h1 h2
    unfold get32
    rw [hfr y (by omega) (by omega), hfr (y+1) (by omega) (by omega),
      hfr (y+2) (by omega) (by omega), hfr (y+3) (by omega) (by omega)]
  have hpaf : GET_PREV_ALLOC st.mem p + 1 < 8 := by rcases hpa2 with h | h <;> omega
  constructor
  · -- split case
    intro hsplit
    have hG2 : GET_SIZE (put32 (remove_free_block st p).mem (p - 4)
        (PACK asize (GET_PREV_ALLOC st.mem p ||| 1))) (p - 4) = asize := by
      rw [hf]
      exact GET_SIZE_put32_pack _ _ _ _ hasz8 hpaf (by omega)
    have hnb : NEXT_BLKP (put32 (remove_free_block st p).mem (p - 4)
        (PACK asize (GET_PREV_ALLOC st.mem p ||| 1))) p = p + asize := by
      unfold NEXT_BLKP
      rw [HDRP_eq, hG2]
    have hbranch : place st p asize =
        add_free_block
          { remove_free_block st p with
            mem :=
              put32 (put32 (put32 (remove_free_block st p).mem (p - 4)
                  (PACK asize (GET_PREV_ALLOC st.mem p ||| 1)))
                (p + asize - 4) (PACK (GET_SIZE st.mem (p - 4) - asize) 2))
                (p + GET_SIZE st.mem (p - 4) - 8)
                (PACK (GET_SIZE st.mem (p - 4) - asize) 0) }
          (p + asize) := by
      unfold place
      dsimp only
      simp only [HDRP_eq]
      rw [if_pos (show 2 * DSIZE ≤ GET_SIZE st.mem (p - 4) - asize from hsplit), hnb]
      have hft : FTRP (put32 (put32 (remove_free_block st p).mem (p - 4)
          (PACK asize (GET_PREV_ALLOC st.mem p ||| 1))) (p + asize - 4)
          (PACK (GET_SIZE st.mem (p - 4) - asize) 2)) (p + asize) =
          p + GET_SIZE st.mem (p - 4) - 8 := by
        unfold FTRP
        rw [HDRP_eq, GET_SIZE_put32_pack _ _ _ _ (by omega) (by omega) (by omega)]
        omega
      rw [hft]
    rw [hbranch]
    set st1 := remove_free_block st p with hst1
    set m4 : Mem := put32 (put32 (put32 st1.mem (p - 4)
        (PACK asize (GET_PREV_ALLOC st.mem p ||| 1)))
      (p + asize - 4) (PACK (GET_SIZE st.mem (p - 4) - asize) 2))
      (p + GET_SIZE st.mem (p - 4) - 8)
      (PACK (GET_SIZE st.mem (p - 4) - asize) 0) with hm4
    set stA : Heap := { st1 with mem := m4 } with hstA
    have hGA : GET_SIZE stA.mem (HDRP (p + asize)) =
        GET_SIZE st.mem (p - 4) - asize := by
      show GET_SIZE m4 (p + asize - 4) = _
      rw [hm4, GET_SIZE_put32_frame _ _ _ _ (by omega),
        GET_SIZE_put32_pack _ _ _ _ (by omega) (by omega) (by omega)]
    have hclsA : get_seg_listp stA (GET_SIZE stA.mem (HDRP (p + asize))) =
        get_seg_listp st (GET_SIZE st.mem (p - 4) - asize) := by
      rw [hGA]
      unfold get_seg_listp
      rw [show stA.seg_list_start = st.seg_list_start from
        (remove_free_block_globals st p).2.2.2]
    have hffA : get64 stA.mem (get_seg_listp stA (GET_SIZE stA.mem (HDRP (p + asize)))) =
        get64 st1.mem (get_seg_listp st (GET_SIZE st.mem (p - 4) - asize)) := by
      rw [hclsA]
      show get64 m4 _ = _
      rw [hm4, get64_put32_frame _ _ _ _ (by omega),
        get64_put32_frame _ _ _ _ (by omega), get64_put32_frame _ _ _ _ (by omega)]
    have hhdrA : get32 m4 (p - 4) = PACK asize (GET_PREV_ALLOC st.mem p ||| 1) := by
      rw [hm4, get32_put32_frame _ _ _ _ (by omega),
        get32_put32_frame _ _ _ _ (by omega)]
      rw [hf]
      exact get32_put32_pack _ _ _ _ hasz8 hpaf (by omega)
    have hremA : get32 m4 (p + asize - 4) =
        PACK (GET_SIZE st.mem (p - 4) - asize) 2 := by
      rw [hm4, get32_put32_frame _ _ _ _ (by omega)]
      exact get32_put32_pack _ _ _ _ (by omega) (by omega) (by omega)
    have hftA : get32 m4 (p + GET_SIZE st.mem (p - 4) - 8) =
        PACK (GET_SIZE st.mem (p - 4) - asize) 0 := by
      rw [hm4]
      exact get32_put32_pack _ _ _ _ (by omega) (by omega) (by omega)
    rcases hhrC with hr0 | hrc
    · rw [add_free_block_empty stA (p + asize) (by rw [hffA]; exact hr0), hclsA]
      dsimp only
      refine ⟨?_, ?_, ?_, ?_⟩
      · rw [get32_put32_frame _ _ _ _ (by omega), get32_put32_frame _ _ _ _ (by omega),
          get32_put64_frame _ _ _ _ (by omega)]
        exact hhdrA
      · rw [get32_put32_frame _ _ _ _ (by omega), get32_put32_frame _ _ _ _ (by omega),
          get32_put64_frame _ _ _ _ (by omega)]
        exact hremA
      · rw [get32_put32_frame _ _ _ _ (by omega), get32_put32_frame _ _ _ _ (by omega),
          get32_put64_frame _ _ _ _ (by omega)]
        exact hftA
      · rw [get64_put32_frame _ _ _ _ (by omega), get64_put32_frame _ _ _ _ (by omega),
          get64_put64]
        omega
    · rw [add_free_block_cons stA (p + asize) (by rw [hffA]; omega), hffA, hclsA]
      dsimp only
      refine ⟨?_, ?_, ?_, ?_⟩
      · rw [get32_put32_frame _ _ _ _ (by omega), get32_put64_frame _ _ _ _ (by omega),
          get32_put32_frame _ _ _ _ (by omega), get32_put32_frame _ _ _ _ (by omega)]
        exact hhdrA
      · rw [get32_put32_frame _ _ _ _ (by omega), get32_put64_frame _ _ _ _ (by omega),
          get32_put32_frame _ _ _ _ (by omega), get32_put32_frame _ _ _ _ (by omega)]
        exact hremA
      · rw [get32_put32_frame _ _ _ _ (by omega), get32_put64_frame _ _ _ _ (by omega),
          get32_put32_frame _ _ _ _ (by omega), get32_put32_frame _ _ _ _ (by omega)]
        exact hftA
      · rw [get64_put32_frame _ _ _ _ (by omega), get64_put64]
        omega
  · -- no-split case
    intro hns
    have hG2 : GET_SIZE (put32 (remove_free_block st p).mem (p - 4)
        (PACK (GET_SIZE st.mem (p - 4)) (GET_PREV_ALLOC st.mem p ||| 1))) (p - 4) =
        GET_SIZE st.mem (p - 4) := by
      rw [hf]
      exact GET_SIZE_put32_pack _ _ _ _ (by omega) hpaf (by omega)
    have hnb : NEXT_BLKP (put32 (remove_free_block st p).mem (p - 4)
        (PACK (GET_SIZE st.mem (p - 4)) (GET_PREV_ALLOC st.mem p ||| 1))) p =
        p + GET_SIZE st.mem (p - 4) := by
      unfold NEXT_BLKP
      rw [HDRP_eq, hG2]
    have hbranch : place st p asize =
        { remove_free_block st p with
          mem :=
            put32 (put32 (remove_free_block st p).mem (p - 4)
                (PACK (GET_SIZE st.mem (p - 4)) (GET_PREV_ALLOC st.mem p ||| 1)))
              (p + GET_SIZE st.mem (p - 4) - 4)
              (get32 (put32 (remove_free_block st p).mem (p - 4)
                  (PACK (GET_SIZE st.mem (p - 4)) (GET_PREV_ALLOC st.mem p ||| 1)))
                (p + GET_SIZE st.mem (p - 4) - 4) ||| 2) } := by
      unfold place
      dsimp only
      simp only [HDRP_eq]
      have hcond : ¬(2 * DSIZE ≤ GET_SIZE st.mem (p - 4) - asize) := by
        show ¬(16 ≤ _)
        omega
      rw [if_neg hcond, hnb]
      rw [if_pos (show p + GET_SIZE st.mem (p - 4) ≠ 0 by omega)]
    rw [hbranch]
    dsimp only
    have hold : get32 (put32 (remove_free_block st p).mem (p - 4)
        (PACK (GET_SIZE st.mem (p - 4)) (GET_PREV_ALLOC st.mem p ||| 1)))
        (p + GET_SIZE st.mem (p - 4) - 4) = get32 st.mem (p + GET_SIZE st.mem (p - 4) - 4) := by
      rw [get32_put32_frame _ _ _ _ (by omega)]
      exact hfr32 _ (by omega) (by omega)
    constructor
    · rw [get32_put32_frame _ _ _ _ (by omega)]
      rw [hf]
      exact get32_put32_pack _ _ _ _ (by omega) hpaf (by omega)
    · rw [get32_put32, hold]
      have holdlt : get32 st.mem (p + GET_SIZE st.mem (p - 4) - 4) < 4294967296 :=
        get32_lt _ _ hsucc
      have hor := lor_two (get32 st.mem (p + GET_SIZE st.mem (p - 4) - 4))
      omega

/-- C3 (amended): a successful heap extension creates a block of size
`max (round_up (words * 4) 8) DSIZE` — the source floors at `DSIZE = 8`,
not 16 — and inserts it into its size-class list exactly when that size
is at least 16 (when it is smaller nothing below the new header is
written, in particular no directory slot). -/
theorem C3_thm (st : Heap) (words s d : Nat)
    (hs : s = extend_heap_size words)
    (hd : d = get_seg_listp st s)
    (hw : (words + 1) * 4 < 4294967296)
    (hsb : st.brk + s ≤ st.limit)
    (hb64 : st.brk + s < 18446744073709551616)
    (hpa : GET_PREV_ALLOC st.mem st.brk = 2)
    (hdisj : d + 8 ≤ st.brk - 4)
    (hbrk : 12 ≤ st.brk)
    (hlist : get64 st.mem d = 0) :
    s = max (round_up (words * 4) 8) DSIZE ∧
    (extend_heap st words).2 = some st.brk ∧
    GET_SIZE (extend_heap st words).1.mem (HDRP st.brk) = s ∧
    (16 ≤ s → get64 (extend_heap st words).1.mem d = st.brk) ∧
    (s < 16 → ∀ x, x < st.brk - 4 → (extend_heap st words).1.mem x = st.mem x) := by
  have h64 : (2:Nat)^64 = 18446744073709551616 := by norm_num
  have hmax : s = max (round_up (words * 4) 8) DSIZE := by
    rw [hs]
    unfold extend_heap_size round_up WSIZE DSIZE
    dsimp only
    rcases Nat.mod_two_eq_zero_or_one words with h | h
    · rw [if_neg (by omega), Nat.mod_eq_of_lt (show words * 4 < 2^64 by rw [h64]; omega)]
      rw [Nat.max_def, Nat.max_def]
      split_ifs <;> omega
    · rw [if_pos h, Nat.mod_eq_of_lt (show (words + 1) * 4 < 2^64 by rw [h64]; omega)]
      rw [Nat.max_def, Nat.max_def]
      split_ifs <;> omega
  have hs8 : s % 8 = 0 ∧ 8 ≤ s ∧ s < 4294967296 := by
    rw [hmax, Nat.max_def]
    unfold round_up DSIZE
    split_ifs <;> omega
  have hsbrk : mem_sbrk st s = ({ st with brk := st.brk + s }, some st.brk) := by
    unfold mem_sbrk
    rw [if_pos hsb]
  set m1 : Mem := put32 st.mem (st.brk - 4) (PACK s 2) with hm1
  set m2 : Mem := put32 m1 (st.brk + s - 8) (PACK s 0) with hm2
  set m3 : Mem := put32 m2 (st.brk + s - 4) (PACK 0 1) with hm3
  have hG1 : GET_SIZE m1 (st.brk - 4) = s := by
    rw [hm1]
    exact GET_SIZE_put32_pack _ _ _ _ hs8.1 (by omega) (by omega)
  have hFT : FTRP m1 st.brk = st.brk + s - 8 := by
    unfold FTRP
    rw [HDRP_eq, hG1]
  have hG2 : GET_SIZE m2 (st.brk - 4) = s := by
    rw [hm2, GET_SIZE_put32_frame _ _ _ _ (by omega)]
    exact hG1
  have hNB : NEXT_BLKP m2 st.brk = st.brk + s := by
    unfold NEXT_BLKP
    rw [HDRP_eq, hG2]
  have hG3 : GET_SIZE m3 (st.brk - 4) = s := by
    rw [hm3, GET_SIZE_put32_frame _ _ _ _ (by omega)]
    exact hG2
  have hg3hdr : get32 m3 (st.brk - 4) = PACK s 2 := by
    rw [hm3, get32_put32_frame _ _ _ _ (by omega), hm2,
      get32_put32_frame _ _ _ _ (by omega), hm1]
    exact get32_put32_pack _ _ _ _ hs8.1 (by omega) (by omega)
  have hg3ep : get32 m3 (st.brk + s - 4) = 1 := by
    rw [hm3, get32_put32]
    decide
  have hlist3 : get64 m3 d = 0 := by
    rw [hm3, get64_put32_frame _ _ _ _ (by omega), hm2,
      get64_put32_frame _ _ _ _ (by omega), hm1, get64_put32_frame _ _ _ _ (by omega)]
    exact hlist
  have hcoal : ∀ stX : Heap, GET_PREV_ALLOC stX.mem st.brk ≠ 0 →
      GET_ALLOC stX.mem (HDRP (NEXT_BLKP stX.mem st.brk)) ≠ 0 →
      coalesce stX st.brk = (stX, st.brk) := by
    intro stX h1x h2x
    unfold coalesce
    dsimp only
    rw [if_pos ⟨h1x, h2x⟩]
  by_cases h16 : 16 ≤ s
  · -- the new block is inserted into its class list
    set mA : Mem := put32 (put32 (put64 m3 d st.brk) st.brk 0) (st.brk + 4) 0 with hmA
    have hslot : get_seg_listp { st with brk := st.brk + s, mem := m3 }
        (GET_SIZE ({ st with brk := st.brk + s, mem := m3 } : Heap).mem (HDRP st.brk)) = d := by
      show get_seg_listp { st with brk := st.brk + s, mem := m3 }
        (GET_SIZE m3 (st.brk - 4)) = d
      rw [hG3, hd]
      unfold get_seg_listp
      rfl
    have h0B : get64 ({ st with brk := st.brk + s, mem := m3 } : Heap).mem
        (get_seg_listp { st with brk := st.brk + s, mem := m3 }
          (GET_SIZE ({ st with brk := st.brk + s, mem := m3 } : Heap).mem (HDRP st.brk))) = 0 := by
      rw [hslot]
      exact hlist3
    have hadd : add_free_block { st with brk := st.brk + s, mem := m3 } st.brk =
        { st with brk := st.brk + s, mem := mA } := by
      rw [add_free_block_empty _ _ h0B, hslot, hmA]
    have hhdrA : get32 mA (st.brk - 4) = PACK s 2 := by
      rw [hmA, get32_put32_frame _ _ _ _ (by omega), get32_put32_frame _ _ _ _ (by omega),
        get32_put64_frame _ _ _ _ (by omega)]
      exact hg3hdr
    have hGA : GET_SIZE mA (st.brk - 4) = s := by
      unfold GET_SIZE
      rw [hhdrA]
      unfold PACK
      rw [lor_eq_add8 s 2 hs8.1 (by omega), land_fff8 _ (by omega)]
      omega
    have hepA : get32 mA (st.brk + s - 4) = 1 := by
      rw [hmA, get32_put32_frame _ _ _ _ (by omega), get32_put32_frame _ _ _ _ (by omega),
        get32_put64_frame _ _ _ _ (by omega)]
      exact hg3ep
    have hpaA : GET_PREV_ALLOC mA st.brk ≠ 0 := by
      unfold GET_PREV_ALLOC
      rw [HDRP_eq, hhdrA]
      unfold PACK
      rw [lor_eq_add8 s 2 hs8.1 (by omega), land_two]
      omega
    have hnaA : GET_ALLOC mA (HDRP (NEXT_BLKP mA st.brk)) ≠ 0 := by
      unfold GET_ALLOC NEXT_BLKP
      simp only [HDRP_eq]
      rw [hGA, hepA]
      decide
    have hcoA : coalesce { st with brk := st.brk + s, mem := mA } st.brk =
        ({ st with brk := st.brk + s, mem := mA }, st.brk) :=
      hcoal _ hpaA hnaA
    have hbranch : extend_heap st words =
        ({ st with brk := st.brk + s, mem := mA }, some st.brk) := by
      unfold extend_heap
      dsimp only
      rw [← hs, hsbrk]
      dsimp only
      simp only [HDRP_eq]
      rw [hpa, ← hm1, hFT, ← hm2, hNB, ← hm3]
      rw [if_pos (show 2 * DSIZE ≤ s by show 16 ≤ s; exact h16)]
      rw [hadd, hcoA]
    refine ⟨hmax, ?_, ?_, ?_, ?_⟩
    · rw [hbranch]
    · rw [hbranch]
      show GET_SIZE mA (HDRP st.brk) = s
      rw [HDRP_eq]
      exact hGA
    · intro _
      rw [hbranch]
      show get64 mA d = st.brk
      rw [hmA, get64_put32_frame _ _ _ _ (by omega), get64_put32_frame _ _ _ _ (by omega),
        get64_put64]
      omega
    · intro hlt
      exact absurd h16 (by omega)
  · -- size 8: the block is created but not inserted
    have hpa3 : GET_PREV_ALLOC m3 st.brk ≠ 0 := by
      unfold GET_PREV_ALLOC
      rw [HDRP_eq, hg3hdr]
      unfold PACK
      rw [lor_eq_add8 s 2 hs8.1 (by omega), land_two]
      omega
    have hna3 : GET_ALLOC m3 (HDRP (NEXT_BLKP m3 st.brk)) ≠ 0 := by
      unfold GET_ALLOC NEXT_BLKP
      simp only [HDRP_eq]
      rw [hG3, hg3ep]
      decide
    have hcoN : coalesce { st with brk := st.brk + s, mem := m3 } st.brk =
        ({ st with brk := st.brk + s, mem := m3 }, st.brk) :=
      hcoal _ hpa3 hna3
    have hbranch : extend_heap st words =
        ({ st with brk := st.brk + s, mem := m3 }, some st.brk) := by
      unfold extend_heap
      dsimp only
      rw [← hs, hsbrk]
      dsimp only
      simp only [HDRP_eq]
      rw [hpa, ← hm1, hFT, ← hm2, hNB, ← hm3]
      rw [if_neg (show ¬(2 * DSIZE ≤ s) by show ¬(16 ≤ s); exact h16)]
      rw [hcoN]
    refine ⟨hmax, ?_, ?_, ?_, ?_⟩
    · rw [hbranch]
    · rw [hbranch]
      show GET_SIZE m3 (HDRP st.brk) = s
      rw [HDRP_eq]
      exact hG3
    · intro h
      exact absurd h h16
    · intro _ x hx
      rw [hbranch]
      show m3 x = st.mem x
      rw [hm3, put32_frame _ _ _ _ (by omega), hm2, put32_frame _ _ _ _ (by omega),
        hm1, put32_frame _ _ _ _ (by omega)]

/-- Witness for C3: extending `heapB` by 5 words creates a 24-byte free
block that is pushed on the class-1 list. -/
theorem C3_wit :
    GET_PREV_ALLOC heapB.mem heapB.brk = 2 ∧
    ((24 : Nat) = max (round_up (5 * 4) 8) DSIZE ∧
      (extend_heap heapB 5).2 = some heapB.brk ∧
      GET_SIZE (extend_heap heapB 5).1.mem (HDRP heapB.brk) = 24 ∧
      ((16 : Nat) ≤ 24 → get64 (extend_heap heapB 5).1.mem (BASEADDR + 8) = heapB.brk) ∧
      ((24 : Nat) < 16 → ∀ x, x < heapB.brk - 4 →
        (extend_heap heapB 5).1.mem x = heapB.mem x)) :=
  ⟨by decide,
    C3_thm heapB 5 24 (BASEADDR + 8) (by decide) (by decide) (by decide) (by decide)
      (by decide) (by decide) (by decide) (by decide) (by decide)⟩


theorem memcpy_frame (m : Mem) (dst src n x : Nat) (h : x < dst ∨ dst + n ≤ x) :
    memcpy m dst src n x = m x := by
  unfold memcpy
  rw [if_neg (by omega)]

theorem memcpy_at (m : Mem) (dst src n x : Nat) (h : dst ≤ x ∧ x < dst + n) :
    memcpy m dst src n x = m (src + (x - dst)) := by
  unfold memcpy
  rw [if_pos h]

/-- A failed `extend_heap` leaves the state untouched. -/
theorem extend_heap_none (st st1 : Heap) (w : Nat)
    (h : extend_heap st w = (st1, none)) : st1 = st := by
  unfold extend_heap at h
  dsimp only at h
  unfold mem_sbrk at h
  split_ifs at h <;> simp at h <;> exact h.symm

/-- A failed `malloc` on an initialized heap leaves the state untouched. -/
theorem malloc_none (st st1 : Heap) (n : Nat) (h0 : st.heap_listp ≠ 0)
    (h : malloc st n = (st1, none)) : st1 = st := by
  unfold malloc at h
  dsimp only at h
  rw [if_neg h0] at h
  by_cases hn : n = 0
  · rw [if_pos hn] at h
    injection h with h1 _
    exact h1.symm
  · rw [if_neg hn] at h
    split at h
    · exact absurd (congrArg Prod.snd h) (by simp)
    · split at h
      · next stE heq =>
          injection h with h1 _
          exact h1.symm.trans (extend_heap_none st stE _ heq)
      · exact absurd (congrArg Prod.snd h) (by simp)

/-- C4 (amended): `realloc(p, n)` with `p` nonnull and `n > 0` allocates
with `malloc(n)`; on failure it returns none with the state untouched;
on success it copies exactly `min n (GET_SIZE (HDRP p))` bytes — the
full block size including the 4-byte header, not the payload size — to
the new block, frees `p` and returns the new pointer. -/
theorem C4_thm (st st1 : Heap) (p n q bs cnt d : Nat)
    (hp0 : p ≠ 0) (hn0 : n ≠ 0) (h0 : st.heap_listp ≠ 0)
    (hbs : bs = GET_SIZE st1.mem (HDRP p))
    (hcnt : cnt = min n bs)
    (hd : d = get_seg_listp st1 bs)
    (hpa : GET_PREV_ALLOC st1.mem p = 2)
    (hsv : get32 st1.mem (p + bs - 4) % 2 = 1)
    (hsb4 : ∀ i, i < 4 → st1.mem (p + bs - 4 + i) < 256)
    (hbs8 : bs % 8 = 0) (hbs16 : 16 ≤ bs) (hbs32 : bs + 8 < 4294967296)
    (hdq : d + 8 ≤ p - 4) (hp12 : 12 ≤ p)
    (hq : p + bs ≤ q)
    (hl : get64 st1.mem d = 0)
    (hple : p ≤ st1.brk - 1) (hge : BASEADDR ≤ p)
    (hpres : ∀ i, i < cnt → st1.mem (p + i) = st.mem (p + i)) :
    (∀ stF, malloc st n = (stF, none) → realloc st p n = (st, none)) ∧
    (malloc st n = (st1, some q) →
      (realloc st p n).2 = some q ∧
      ∀ i, i < cnt → (realloc st p n).1.mem (q + i) = st.mem (p + i)) := by
  simp only [HDRP_eq] at hbs
  constructor
  · intro stF hF
    have hst := malloc_none st stF n h0 hF
    unfold realloc
    rw [if_neg hp0, if_neg hn0, hF]
    dsimp only
    rw [hst]
  · intro hm
    have hcif : (if n < bs then n else bs) = cnt := by
      rw [hcnt, Nat.min_def]
      split_ifs <;> omega
    set w : Nat := get32 st1.mem (p + bs - 4) with hw
    set mC : Mem := memcpy st1.mem q p cnt with hmC
    have hcb : cnt ≤ bs := by rw [hcnt]; omega
    have hfrC : ∀ x, x < q → mC x = st1.mem x := by
      intro x hx
      rw [hmC]
      exact memcpy_frame _ _ _ _ _ (by omega)
    have hfr32C : ∀ a, a + 4 ≤ q → get32 mC a = get32 st1.mem a := by
      intro a ha
      unfold get32
      rw [hfrC a (by omega), hfrC (a+1) (by omega), hfrC (a+2) (by omega),
        hfrC (a+3) (by omega)]
    have hfr64C : ∀ a, a + 8 ≤ q → get64 mC a = get64 st1.mem a := by
      intro a ha
      unfold get64
      rw [hfrC a (by omega), hfrC (a+1) (by omega), hfrC (a+2) (by omega),
        hfrC (a+3) (by omega), hfrC (a+4) (by omega), hfrC (a+5) (by omega),
        hfrC (a+6) (by omega), hfrC (a+7) (by omega)]
    have hGmC : GET_SIZE mC (p - 4) = bs := by
      unfold GET_SIZE
      rw [hfr32C (p - 4) (by omega), hbs]
      rfl
    have hpaC : GET_PREV_ALLOC mC p = 2 := by
      unfold GET_PREV_ALLOC
      rw [HDRP_eq, hfr32C (p - 4) (by omega)]
      exact hpa
    set m1C : Mem := put32 mC (p - 4) (PACK bs 2) with hm1C
    have hG1C : GET_SIZE m1C (p - 4) = bs := by
      rw [hm1C]
      exact GET_SIZE_put32_pack _ _ _ _ hbs8 (by omega) (by omega)
    have hFTC : FTRP m1C p = p + bs - 8 := by
      unfold FTRP
      rw [HDRP_eq, hG1C]
    set m2C : Mem := put32 m1C (p + bs - 8) (PACK bs 0) with hm2C
    have hG2C : GET_SIZE m2C (p - 4) = bs := by
      rw [hm2C, GET_SIZE_put32_frame _ _ _ _ (by omega)]
      exact hG1C
    have hNBC : NEXT_BLKP m2C p = p + bs := by
      unfold NEXT_BLKP
      rw [HDRP_eq, hG2C]
    have hg2C : get32 m2C (p + bs - 4) = w := by
      rw [hm2C, get32_put32_frame _ _ _ _ (by omega), hm1C,
        get32_put32_frame _ _ _ _ (by omega)]
      rw [hfr32C (p + bs - 4) (by omega)]
    set m3C : Mem := put32 m2C (p + bs - 4) (w &&& 0xFFFFFFFD) with hm3C
    have hG3C : GET_SIZE m3C (p - 4) = bs := by
      rw [hm3C, GET_SIZE_put32_frame _ _ _ _ (by omega)]
      exact hG2C
    have hhdr3 : get32 m3C (p - 4) = PACK bs 2 := by
      rw [hm3C, get32_put32_frame _ _ _ _ (by omega), hm2C,
        get32_put32_frame _ _ _ _ (by omega), hm1C]
      exact get32_put32_pack _ _ _ _ hbs8 (by omega) (by omega)
    have hl3 : get64 m3C d = 0 := by
      rw [hm3C, get64_put32_frame _ _ _ _ (by omega), hm2C,
        get64_put32_frame _ _ _ _ (by omega), hm1C, get64_put32_frame _ _ _ _ (by omega)]
      rw [hfr64C d (by omega)]
      exact hl
    have hslotC : get_seg_listp { st1 with mem := m3C }
        (GET_SIZE ({ st1 with mem := m3C } : Heap).mem (HDRP p)) = d := by
      show get_seg_listp { st1 with mem := m3C } (GET_SIZE m3C (p - 4)) = d
      rw [hG3C, hd]
      unfold get_seg_listp
      rfl
    have h0C : get64 ({ st1 with mem := m3C } : Heap).mem
        (get_seg_listp { st1 with mem := m3C }
          (GET_SIZE ({ st1 with mem := m3C } : Heap).mem (HDRP p))) = 0 := by
      rw [hslotC]
      exact hl3
    set mAC : Mem := put32 (put32 (put64 m3C d p) p 0) (p + 4) 0 with hmAC
    have haddC : add_free_block { st1 with mem := m3C } p =
        { st1 with mem := mAC } := by
      rw [add_free_block_empty _ _ h0C, hslotC, hmAC]
    have hhdrA : get32 mAC (p - 4) = PACK bs 2 := by
      rw [hmAC, get32_put32_frame _ _ _ _ (by omega), get32_put32_frame _ _ _ _ (by omega),
        get32_put64_frame _ _ _ _ (by omega)]
      exact hhdr3
    have hpaA : GET_PREV_ALLOC mAC p ≠ 0 := by
      unfold GET_PREV_ALLOC
      rw [HDRP_eq, hhdrA]
      unfold PACK
      rw [lor_eq_add8 bs 2 hbs8 (by omega), land_two]
      omega
    have hGA : GET_SIZE mAC (p - 4) = bs := by
      unfold GET_SIZE
      rw [hhdrA]
      unfold PACK
      rw [lor_eq_add8 bs 2 hbs8 (by omega), land_fff8 _ (by omega)]
      omega
    have hwlt : w < 4294967296 := by
      rw [hw]
      exact get32_lt _ _ hsb4
    have hfffd := land_fffd w hwlt
    have hnaA : GET_ALLOC mAC (HDRP (NEXT_BLKP mAC p)) ≠ 0 := by
      unfold GET_ALLOC NEXT_BLKP
      simp only [HDRP_eq]
      rw [hGA]
      rw [hmAC, get32_put32_frame _ _ _ _ (by omega), get32_put32_frame _ _ _ _ (by omega),
        get32_put64_frame _ _ _ _ (by omega), hm3C, get32_put32]
      rw [hfffd, Nat.and_one_is_mod]
      have hsv2 : w % 2 = 1 := hsv
      omega
    have hcoalC : ∀ stX : Heap, GET_PREV_ALLOC stX.mem p ≠ 0 →
        GET_ALLOC stX.mem (HDRP (NEXT_BLKP stX.mem p)) ≠ 0 →
        coalesce stX p = (stX, p) := by
      intro stX h1x h2x
      unfold coalesce
      dsimp only
      rw [if_pos ⟨h1x, h2x⟩]
    have hcoC : coalesce { st1 with mem := mAC } p = ({ st1 with mem := mAC }, p) :=
      hcoalC _ hpaA hnaA
    have hguard : ¬(mem_heap_hi { st1 with mem := mC } < p ∨
        p < mem_heap_lo { st1 with mem := mC }) := by
      unfold mem_heap_hi mem_heap_lo
      dsimp only
      omega
    have hfree : free { st1 with mem := mC } p = { st1 with mem := mAC } := by
      unfold free
      rw [if_neg hp0, if_neg hguard]
      dsimp only
      simp only [HDRP_eq]
      rw [hGmC, hpaC, ← hm1C, hFTC, ← hm2C, hNBC]
      rw [if_pos (show p + bs ≠ 0 by omega)]
      rw [hg2C, ← hm3C]
      try dsimp only
      rw [haddC, hcoC]
    have hre : realloc st p n = (free { st1 with mem := mC } p, some q) := by
      unfold realloc
      rw [if_neg hp0, if_neg hn0, hm]
      dsimp only
      simp only [HDRP_eq]
      rw [← hbs, hcif, ← hmC]
    rw [hre, hfree]
    refine ⟨rfl, ?_⟩
    intro i hi
    show mAC (q + i) = st.mem (p + i)
    have hstep : mAC (q + i) = mC (q + i) := by
      rw [hmAC, put32_frame _ _ _ _ (by omega), put32_frame _ _ _ _ (by omega),
        put64_frame _ _ _ _ (by omega), hm3C, put32_frame _ _ _ _ (by omega),
        hm2C, put32_frame _ _ _ _ (by omega), hm1C, put32_frame _ _ _ _ (by omega)]
    rw [hstep, hmC, memcpy_at _ _ _ _ _ (by omega)]
    have hqi : p + (q + i - q) = p + i := by omega
    rw [hqi]
    exact hpres i hi

/-- Witness for C4: `realloc` of the first 16-byte block of `heapC4` to
24 bytes copies 16 bytes (the block size) to the new block at
`BASEADDR + 160`. -/
theorem C4_wit :
    (16 : Nat) = min 24 16 ∧
    ((∀ stF, malloc heapC4 24 = (stF, none) →
        realloc heapC4 (BASEADDR + 128) 24 = (heapC4, none)) ∧
      (malloc heapC4 24 = ((malloc heapC4 24).1, some (BASEADDR + 160)) →
        (realloc heapC4 (BASEADDR + 128) 24).2 = some (BASEADDR + 160) ∧
        ∀ i, i < 16 → (realloc heapC4 (BASEADDR + 128) 24).1.mem (BASEADDR + 160 + i) =
          heapC4.mem (BASEADDR + 128 + i))) :=
  ⟨by decide,
    C4_thm heapC4 ((malloc heapC4 24).1) (BASEADDR + 128) 24 (BASEADDR + 160) 16 16
      (BASEADDR + 8) (by decide) (by decide) (by decide) (by decide) (by decide)
      (by decide) (by decide) (by decide) (by decide) (by decide) (by decide)
      (by decide) (by decide) (by decide) (by decide) (by decide) (by decide)
      (by decide) (by decide)⟩


/-- The first-fit walk equals `find?` on the extracted chain. -/
theorem first_fit_loop_find (m : Mem) (A : Nat) :
    ∀ fuel bp l, chain m fuel bp = some l →
    first_fit_loop m A fuel bp = l.find? (fun b => decide (A ≤ GET_SIZE m (HDRP b))) := by
  intro fuel
  induction fuel with
  | zero =>
    intro bp l h
    exact absurd h (by unfold chain; simp)
  | succ f ih =>
    intro bp l h
    unfold chain at h
    unfold first_fit_loop
    by_cases hn : GET_NEXT m bp = 0
    · rw [if_pos hn] at h
      injection h with h1
      rw [if_neg (not_not_intro hn), ← h1]
      rfl
    · rw [if_neg hn] at h
      cases hch : chain m f (OFFSET_REAL (GET_NEXT m bp)) with
      | none => rw [hch] at h; simp at h
      | some t =>
        rw [hch] at h
        dsimp only at h
        injection h with h1
        rw [if_pos hn]
        dsimp only
        by_cases hfit : A ≤ GET_SIZE m (HDRP (OFFSET_REAL (GET_NEXT m bp)))
        · rw [if_pos hfit, ← h1, List.find?_cons_of_pos _ (by simpa using hfit)]
        · rw [if_neg hfit, ih _ _ hch, ← h1,
            List.find?_cons_of_neg _ (by simpa using hfit)]

/-- The best-fit walk equals its list replay on the extracted chain. -/
theorem best_fit_loop_list (m : Mem) (A : Nat) :
    ∀ fuel bp l small r, chain m fuel bp = some l →
    best_fit_loop m A fuel bp small r = best_fit_list m A l small r := by
  intro fuel
  induction fuel with
  | zero =>
    intro bp l small r h
    exact absurd h (by unfold chain; simp)
  | succ f ih =>
    intro bp l small r h
    unfold chain at h
    unfold best_fit_loop
    by_cases hn : GET_NEXT m bp = 0
    · rw [if_pos hn] at h
      injection h with h1
      rw [if_neg (not_not_intro hn), ← h1]
      rfl
    · rw [if_neg hn] at h
      cases hch : chain m f (OFFSET_REAL (GET_NEXT m bp)) with
      | none => rw [hch] at h; simp at h
      | some t =>
        rw [hch] at h
        dsimp only at h
        injection h with h1
        rw [if_pos hn, ← h1]
        dsimp only
        simp only [best_fit_list]
        by_cases h1e : A = GET_SIZE m (HDRP (OFFSET_REAL (GET_NEXT m bp)))
        · rw [if_pos h1e, if_pos h1e]
        · rw [if_neg h1e, if_neg h1e]
          by_cases h2l : A < GET_SIZE m (HDRP (OFFSET_REAL (GET_NEXT m bp)))
          · rw [if_pos h2l, if_pos h2l]
            by_cases h3 : r = none ∨ GET_SIZE m (HDRP (OFFSET_REAL (GET_NEXT m bp))) < small
            · rw [if_pos h3, if_pos h3, ih _ _ _ _ hch]
            · rw [if_neg h3, if_neg h3, ih _ _ _ _ hch]
          · rw [if_neg h2l, if_neg h2l, ih _ _ _ _ hch]

/-- A best-fit result is a member of the list and fits. -/
theorem bestFit_mem_fit (m : Mem) (A : Nat) :
    ∀ l b, bestFit m A l = some b → b ∈ l ∧ A ≤ GET_SIZE m (HDRP b) := by
  intro l
  induction l with
  | nil => intro b h; simp [bestFit] at h
  | cons a t ih =>
    intro b h
    unfold bestFit at h
    cases hbt : bestFit m A t with
    | none =>
      rw [hbt] at h
      dsimp only at h
      split_ifs at h with hfit
      · injection h with h1
        exact ⟨by rw [← h1]; exact List.mem_cons_self a t, by rw [← h1]; exact hfit⟩
    | some c =>
      rw [hbt] at h
      dsimp only at h
      split_ifs at h with hcond
      · injection h with h1
        exact ⟨by rw [← h1]; exact List.mem_cons_self a t, by rw [← h1]; exact hcond.1⟩
      · injection h with h1
        rcases ih c hbt with ⟨hm1, hm2⟩
        exact ⟨by rw [← h1]; exact List.mem_cons_of_mem a hm1, by rw [← h1]; exact hm2⟩

/-- Best fit returns none exactly when no node fits. -/
theorem bestFit_none_iff (m : Mem) (A : Nat) :
    ∀ l, bestFit m A l = none ↔ ∀ x ∈ l, GET_SIZE m (HDRP x) < A := by
  intro l
  induction l with
  | nil => simp [bestFit]
  | cons a t ih =>
    unfold bestFit
    cases hbt : bestFit m A t with
    | none =>
      dsimp only
      constructor
      · intro h
        split_ifs at h with hfit
        intro x hx
        rcases List.mem_cons.mp hx with h1 | h1
        · rw [h1]; omega
        · exact ih.mp hbt x h1
      · intro h
        rw [if_neg (by have := h a (List.mem_cons_self a t); omega)]
    | some c =>
      dsimp only
      constructor
      · intro h
        split_ifs at h <;> simp at h
      · intro h
        rcases bestFit_mem_fit m A t c hbt with ⟨hm1, hm2⟩
        have := h c (List.mem_cons_of_mem a hm1)
        omega

/-- A best-fit result has minimal size among the fitting nodes. -/
theorem bestFit_min (m : Mem) (A : Nat) :
    ∀ l b, bestFit m A l = some b →
    ∀ x ∈ l, A ≤ GET_SIZE m (HDRP x) → GET_SIZE m (HDRP b) ≤ GET_SIZE m (HDRP x) := by
  intro l
  induction l with
  | nil => intro b h; simp [bestFit] at h
  | cons a t ih =>
    intro b h x hx hxfit
    unfold bestFit at h
    cases hbt : bestFit m A t with
    | none =>
      rw [hbt] at h
      dsimp only at h
      split_ifs at h with hfit
      injection h with h1
      rcases List.mem_cons.mp hx with h2 | h2
      · rw [← h1, h2]
      · have := (bestFit_none_iff m A t).mp hbt x h2
        omega
    | some c =>
      rw [hbt] at h
      dsimp only at h
      split_ifs at h with hcond
      · injection h with h1
        rcases List.mem_cons.mp hx with h2 | h2
        · rw [← h1, h2]
        · have := ih c hbt x h2 hxfit
          rw [← h1]
          omega
      · injection h with h1
        rcases List.mem_cons.mp hx with h2 | h2
        · rw [← h1, h2]
          push_neg at hcond
          rw [h2] at hxfit
          exact le_of_lt (hcond hxfit)
        · rw [← h1]
          exact ih c hbt x h2 hxfit

/-- A best-fit result is the first node attaining the minimum: every
node strictly before it either does not fit or is strictly larger. -/
theorem bestFit_first (m : Mem) (A : Nat) :
    ∀ l b, bestFit m A l = some b →
    ∃ l1 l2, l = l1 ++ b :: l2 ∧
      ∀ x ∈ l1, GET_SIZE m (HDRP x) < A ∨ GET_SIZE m (HDRP b) < GET_SIZE m (HDRP x) := by
  intro l
  induction l with
  | nil => intro b h; simp [bestFit] at h
  | cons a t ih =>
    intro b h
    unfold bestFit at h
    cases hbt : bestFit m A t with
    | none =>
      rw [hbt] at h
      dsimp only at h
      split_ifs at h with hfit
      injection h with h1
      exact ⟨[], t, by rw [h1]; rfl, by simp⟩
    | some c =>
      rw [hbt] at h
      dsimp only at h
      split_ifs at h with hcond
      · injection h with h1
        exact ⟨[], t, by rw [h1]; rfl, by simp⟩
      · injection h with h1
        rcases ih c hbt with ⟨l1, l2, he, hall⟩
        refine ⟨a :: l1, l2, by rw [← h1, he]; rfl, ?_⟩
        intro x hx
        rcases List.mem_cons.mp hx with h2 | h2
        · push_neg at hcond
          rw [h2, ← h1]
          by_cases hfa : A ≤ GET_SIZE m (HDRP a)
          · exact Or.inr (hcond hfa)
          · exact Or.inl (by omega)
        · rw [← h1]
          exact hall x h2

/-- An exact match at the head wins best fit. -/
theorem bestFit_cons_exact (m : Mem) (A a : Nat) (t : List Nat)
    (h : A = GET_SIZE m (HDRP a)) : bestFit m A (a :: t) = some a := by
  simp only [bestFit]
  cases hbt : bestFit m A t with
  | none => dsimp only; rw [if_pos (by omega)]
  | some c =>
    have := (bestFit_mem_fit m A t c hbt).2
    dsimp only
    rw [if_pos ⟨by omega, by omega⟩]

/-- Best fit on a cons with a fitting head, in accumulator form. -/
theorem bestFit_cons_fit (m : Mem) (A a : Nat) (t : List Nat)
    (h : A ≤ GET_SIZE m (HDRP a)) :
    bestFit m A (a :: t) =
      match bestFit m A t with
      | none => some a
      | some c => if GET_SIZE m (HDRP c) < GET_SIZE m (HDRP a) then some c else some a := by
  simp only [bestFit]
  cases hbt : bestFit m A t with
  | none => dsimp only; rw [if_pos h]
  | some c =>
    dsimp only
    by_cases hlt : GET_SIZE m (HDRP c) < GET_SIZE m (HDRP a)
    · rw [if_neg (by omega), if_pos hlt]
    · rw [if_pos ⟨h, by omega⟩, if_neg hlt]

/-- A non-fitting head does not change best fit. -/
theorem bestFit_cons_nonfit (m : Mem) (A a : Nat) (t : List Nat)
    (h : ¬ A ≤ GET_SIZE m (HDRP a)) : bestFit m A (a :: t) = bestFit m A t := by
  simp only [bestFit]
  cases hbt : bestFit m A t with
  | none => dsimp only; rw [if_neg h]
  | some c => dsimp only; rw [if_neg (by tauto)]

/-- The accumulator loop with a current candidate `c` of size `small`
strictly above `A` returns the best of `c` and the best fit of the rest,
preferring `c` on ties. -/
theorem best_fit_list_inv (m : Mem) (A : Nat) :
    ∀ l (small c : Nat), A < small → GET_SIZE m (HDRP c) = small →
    best_fit_list m A l small (some c) =
      match bestFit m A l with
      | none => some c
      | some b => if GET_SIZE m (HDRP b) < small then some b else some c := by
  intro l
  induction l with
  | nil => intro small c _ _; rfl
  | cons a t ih =>
    intro small c hA hsz
    simp only [best_fit_list]
    by_cases h1 : A = GET_SIZE m (HDRP a)
    · rw [if_pos h1, bestFit_cons_exact m A a t h1]
      dsimp only
      rw [if_pos (by omega)]
    · rw [if_neg h1]
      by_cases h2 : A < GET_SIZE m (HDRP a)
      · rw [if_pos h2, bestFit_cons_fit m A a t (by omega)]
        by_cases h3 : GET_SIZE m (HDRP a) < small
        · rw [if_pos (Or.inr h3), ih _ _ (by omega) rfl]
          cases hbt : bestFit m A t with
          | none => dsimp only; rw [if_pos h3]
          | some b =>
            dsimp only
            by_cases h4 : GET_SIZE m (HDRP b) < GET_SIZE m (HDRP a)
            · rw [if_pos h4]
              dsimp only
              rw [if_pos (by omega)]
            · rw [if_neg h4]
              dsimp only
              rw [if_pos h3]
        · rw [if_neg (by simp; omega), ih _ _ hA hsz]
          cases hbt : bestFit m A t with
          | none => dsimp only; rw [if_neg h3]
          | some b =>
            dsimp only
            by_cases h4 : GET_SIZE m (HDRP b) < GET_SIZE m (HDRP a)
            · rw [if_pos h4]
            · rw [if_neg h4]
              dsimp only
              rw [if_neg (show ¬(GET_SIZE m (HDRP b) < small) by omega), if_neg h3]
      · rw [if_neg h2, bestFit_cons_nonfit m A a t (by omega), ih _ _ hA hsz]

/-- The accumulator loop started empty computes exactly `bestFit`. -/
theorem best_fit_list_none (m : Mem) (A : Nat) :
    ∀ l small, best_fit_list m A l small none = bestFit m A l := by
  intro l
  induction l with
  | nil => intro small; rfl
  | cons a t ih =>
    intro small
    simp only [best_fit_list]
    by_cases h1 : A = GET_SIZE m (HDRP a)
    · rw [if_pos h1, bestFit_cons_exact m A a t h1]
    · rw [if_neg h1]
      by_cases h2 : A < GET_SIZE m (HDRP a)
      · rw [if_pos h2, if_pos (Or.inl trivial),
          best_fit_list_inv m A t _ _ h2 rfl, bestFit_cons_fit m A a t (by omega)]
      · rw [if_neg h2, ih, bestFit_cons_nonfit m A a t (by omega)]

/-- Below 960 bytes `find_seg_fit` is first fit on the node list. -/
theorem find_seg_fit_first (m : Mem) (fuel A slot : Nat) (xs : List Nat)
    (h : seglist m fuel slot = some xs) (hA : A < 960) :
    find_seg_fit m fuel A slot =
      xs.find? (fun b => decide (A ≤ GET_SIZE m (HDRP b))) := by
  unfold seglist at h
  unfold find_seg_fit
  by_cases h0 : get64 m slot = 0
  · rw [if_pos h0] at h
    injection h with h1
    rw [if_pos h0, ← h1]
    rfl
  · rw [if_neg h0] at h
    cases hch : chain m fuel (get64 m slot) with
    | none => rw [hch] at h; simp at h
    | some t =>
      rw [hch] at h
      dsimp only at h
      injection h with h1
      rw [if_neg h0]
      dsimp only
      rw [if_pos hA]
      by_cases hfit : A ≤ GET_SIZE m (HDRP (get64 m slot))
      · rw [if_pos hfit, ← h1, List.find?_cons_of_pos _ (by simpa using hfit)]
      · rw [if_neg hfit, first_fit_loop_find m A fuel _ _ hch, ← h1,
          List.find?_cons_of_neg _ (by simpa using hfit)]

/-- From 960 bytes up `find_seg_fit` is best fit on the node list. -/
theorem find_seg_fit_best (m : Mem) (fuel A slot : Nat) (xs : List Nat)
    (h : seglist m fuel slot = some xs) (hA : 960 ≤ A) :
    find_seg_fit m fuel A slot = bestFit m A xs := by
  unfold seglist at h
  unfold find_seg_fit
  by_cases h0 : get64 m slot = 0
  · rw [if_pos h0] at h
    injection h with h1
    rw [if_pos h0, ← h1]
    rfl
  · rw [if_neg h0] at h
    cases hch : chain m fuel (get64 m slot) with
    | none => rw [hch] at h; simp at h
    | some t =>
      rw [hch] at h
      dsimp only at h
      injection h with h1
      rw [if_neg h0]
      try dsimp only
      rw [if_neg (by omega)]
      try dsimp only
      by_cases he : A = GET_SIZE m (HDRP (get64 m slot))
      · rw [if_pos he, ← h1, bestFit_cons_exact m A _ t he]
      · rw [if_neg he]
        by_cases hlt : A < GET_SIZE m (HDRP (get64 m slot))
        · rw [if_pos hlt, best_fit_loop_list m A fuel _ t _ _ hch,
            best_fit_list_inv m A t _ _ hlt rfl, ← h1,
            bestFit_cons_fit m A _ t (by omega)]
        · rw [if_neg hlt, best_fit_loop_list m A fuel _ t _ _ hch,
            best_fit_list_none m A t, ← h1,
            bestFit_cons_nonfit m A _ t (by omega)]

/-- Interval characterizations of `seg_index`. -/
theorem seg_index_val0 (s : Nat) (h : s < 16) : seg_index s = 0 := by
  unfold seg_index
  rw [if_pos h]

theorem seg_index_val1 (s : Nat) (h1 : 16 ≤ s) (h2 : s < 32) :
    seg_index s = 1 := by
  have n0 : ¬(s < 16) := by omega
  unfold seg_index
  rw [if_neg n0, if_pos h2]

theorem seg_index_val2 (s : Nat) (h1 : 32 ≤ s) (h2 : s < 64) :
    seg_index s = 2 := by
  have n0 : ¬(s < 16) := by omega
  have n1 : ¬(s < 32) := by omega
  unfold seg_index
  rw [if_neg n0, if_neg n1, if_pos h2]

theorem seg_index_val3 (s : Nat) (h1 : 64 ≤ s) (h2 : s < 128) :
    seg_index s = 3 := by
  have n0 : ¬(s < 16) := by omega
  have n1 : ¬(s < 32) := by omega
  have n2 : ¬(s < 64) := by omega
  unfold seg_index
  rw [if_neg n0, if_neg n1, if_neg n2, if_pos h2]

theorem seg_index_val4 (s : Nat) (h1 : 128 ≤ s) (h2 : s < 256) :
    seg_index s = 4 := by
  have n0 : ¬(s < 16) := by omega
  have n1 : ¬(s < 32) := by omega
  have n2 : ¬(s < 64) := by omega
  have n3 : ¬(s < 128) := by omega
  unfold seg_index
  rw [if_neg n0, if_neg n1, if_neg n2, if_neg n3, if_pos h2]

theorem seg_index_val5 (s : Nat) (h1 : 256 ≤ s) (h2 : s < 480) :
    seg_index s = 5 := by
  have n0 : ¬(s < 16) := by omega
  have n1 : ¬(s < 32) := by omega
  have n2 : ¬(s < 64) := by omega
  have n3 : ¬(s < 128) := by omega
  have n4 : ¬(s < 256) := by omega
  unfold seg_index
  rw [if_neg n0, if_neg n1, if_neg n2, if_neg n3, if_neg n4, if_pos h2]

theorem seg_index_val6 (s : Nat) (h1 : 480 ≤ s) (h2 : s < 960) :
    seg_index s = 6 := by
  have n0 : ¬(s < 16) := by omega
  have n1 : ¬(s < 32) := by omega
  have n2 : ¬(s < 64) := by omega
  have n3 : ¬(s < 128) := by omega
  have n4 : ¬(s < 256) := by omega
  have n5 : ¬(s < 480) := by omega
  unfold seg_index
  rw [if_neg n0, if_neg n1, if_neg n2, if_neg n3, if_neg n4, if_neg n5, if_pos h2]

theorem seg_index_val7 (s : Nat) (h1 : 960 ≤ s) (h2 : s < 1920) :
    seg_index s = 7 := by
  have n0 : ¬(s < 16) := by omega
  have n1 : ¬(s < 32) := by omega
  have n2 : ¬(s < 64) := by omega
  have n3 : ¬(s < 128) := by omega
  have n4 : ¬(s < 256) := by omega
  have n5 : ¬(s < 480) := by omega
  have n6 : ¬(s < 960) := by omega
  unfold seg_index
  rw [if_neg n0, if_neg n1, if_neg n2, if_neg n3, if_neg n4, if_neg n5, if_neg n6, if_pos h2]

theorem seg_index_val8 (s : Nat) (h1 : 1920 ≤ s) (h2 : s < 3840) :
    seg_index s = 8 := by
  have n0 : ¬(s < 16) := by omega
  have n1 : ¬(s < 32) := by omega
  have n2 : ¬(s < 64) := by omega
  have n3 : ¬(s < 128) := by omega
  have n4 : ¬(s < 256) := by omega
  have n5 : ¬(s < 480) := by omega
  have n6 : ¬(s < 960) := by omega
  have n7 : ¬(s < 1920) := by omega
  unfold seg_index
  rw [if_neg n0, if_neg n1, if_neg n2, if_neg n3, if_neg n4, if_neg n5, if_neg n6, if_neg n7, if_pos h2]

theorem seg_index_val9 (s : Nat) (h1 : 3840 ≤ s) (h2 : s < 7680) :
    seg_index s = 9 := by
  have n0 : ¬(s < 16) := by omega
  have n1 : ¬(s < 32) := by omega
  have n2 : ¬(s < 64) := by omega
  have n3 : ¬(s < 128) := by omega
  have n4 : ¬(s < 256) := by omega
  have n5 : ¬(s < 480) := by omega
  have n6 : ¬(s < 960) := by omega
  have n7 : ¬(s < 1920) := by omega
  have n8 : ¬(s < 3840) := by omega
  unfold seg_index
  rw [if_neg n0, if_neg n1, if_neg n2, if_neg n3, if_neg n4, if_neg n5, if_neg n6, if_neg n7, if_neg n8, if_pos h2]

theorem seg_index_val10 (s : Nat) (h1 : 7680 ≤ s) (h2 : s < 15360) :
    seg_index s = 10 := by
  have n0 : ¬(s < 16) := by omega
  have n1 : ¬(s < 32) := by omega
  have n2 : ¬(s < 64) := by omega
  have n3 : ¬(s < 128) := by omega
  have n4 : ¬(s < 256) := by omega
  have n5 : ¬(s < 480) := by omega
  have n6 : ¬(s < 960) := by omega
  have n7 : ¬(s < 1920) := by omega
  have n8 : ¬(s < 3840) := by omega
  have n9 : ¬(s < 7680) := by omega
  unfold seg_index
  rw [if_neg n0, if_neg n1, if_neg n2, if_neg n3, if_neg n4, if_neg n5, if_neg n6, if_neg n7, if_neg n8, if_neg n9, if_pos h2]

theorem seg_index_val11 (s : Nat) (h1 : 15360 ≤ s) (h2 : s < 30720) :
    seg_index s = 11 := by
  have n0 : ¬(s < 16) := by omega
  have n1 : ¬(s < 32) := by omega
  have n2 : ¬(s < 64) := by omega
  have n3 : ¬(s < 128) := by omega
  have n4 : ¬(s < 256) := by omega
  have n5 : ¬(s < 480) := by omega
  have n6 : ¬(s < 960) := by omega
  have n7 : ¬(s < 1920) := by omega
  have n8 : ¬(s < 3840) := by omega
  have n9 : ¬(s < 7680) := by omega
  have n10 : ¬(s < 15360) := by omega
  unfold seg_index
  rw [if_neg n0, if_neg n1, if_neg n2, if_neg n3, if_neg n4, if_neg n5, if_neg n6, if_neg n7, if_neg n8, if_neg n9, if_neg n10, if_pos h2]

theorem seg_index_val12 (s : Nat) (h1 : 30720 ≤ s) (h2 : s < 61440) :
    seg_index s = 12 := by
  have n0 : ¬(s < 16) := by omega
  have n1 : ¬(s < 32) := by omega
  have n2 : ¬(s < 64) := by omega
  have n3 : ¬(s < 128) := by omega
  have n4 : ¬(s < 256) := by omega
  have n5 : ¬(s < 480) := by omega
  have n6 : ¬(s < 960) := by omega
  have n7 : ¬(s < 1920) := by omega
  have n8 : ¬(s < 3840) := by omega
  have n9 : ¬(s < 7680) := by omega
  have n10 : ¬(s < 15360) := by omega
  have n11 : ¬(s < 30720) := by omega
  unfold seg_index
  rw [if_neg n0, if_neg n1, if_neg n2, if_neg n3, if_neg n4, if_neg n5, if_neg n6, if_neg n7, if_neg n8, if_neg n9, if_neg n10, if_neg n11, if_pos h2]

theorem seg_index_val13 (s : Nat) (h1 : 61440 ≤ s) : seg_index s = 13 := by
  have n0 : ¬(s < 16) := by omega
  have n1 : ¬(s < 32) := by omega
  have n2 : ¬(s < 64) := by omega
  have n3 : ¬(s < 128) := by omega
  have n4 : ¬(s < 256) := by omega
  have n5 : ¬(s < 480) := by omega
  have n6 : ¬(s < 960) := by omega
  have n7 : ¬(s < 1920) := by omega
  have n8 : ¬(s < 3840) := by omega
  have n9 : ¬(s < 7680) := by omega
  have n10 : ¬(s < 15360) := by omega
  have n11 : ¬(s < 30720) := by omega
  have n12 : ¬(s < 61440) := by omega
  unfold seg_index
  rw [if_neg n0, if_neg n1, if_neg n2, if_neg n3, if_neg n4, if_neg n5, if_neg n6, if_neg n7, if_neg n8, if_neg n9, if_neg n10, if_neg n11, if_neg n12]

/-- The size classes are indexed 0..13. -/
theorem seg_index_le (s : Nat) : seg_index s ≤ 13 := by
  by_cases hs0 : s < 16
  · rw [seg_index_val0 s hs0]
    omega
  by_cases hs1 : s < 32
  · rw [seg_index_val1 s (by omega) hs1]
    omega
  by_cases hs2 : s < 64
  · rw [seg_index_val2 s (by omega) hs2]
    omega
  by_cases hs3 : s < 128
  · rw [seg_index_val3 s (by omega) hs3]
    omega
  by_cases hs4 : s < 256
  · rw [seg_index_val4 s (by omega) hs4]
    omega
  by_cases hs5 : s < 480
  · rw [seg_index_val5 s (by omega) hs5]
    omega
  by_cases hs6 : s < 960
  · rw [seg_index_val6 s (by omega) hs6]
    omega
  by_cases hs7 : s < 1920
  · rw [seg_index_val7 s (by omega) hs7]
    omega
  by_cases hs8 : s < 3840
  · rw [seg_index_val8 s (by omega) hs8]
    omega
  by_cases hs9 : s < 7680
  · rw [seg_index_val9 s (by omega) hs9]
    omega
  by_cases hs10 : s < 15360
  · rw [seg_index_val10 s (by omega) hs10]
    omega
  by_cases hs11 : s < 30720
  · rw [seg_index_val11 s (by omega) hs11]
    omega
  by_cases hs12 : s < 61440
  · rw [seg_index_val12 s (by omega) hs12]
    omega
  rw [seg_index_val13 s (by omega)]

/-- The class index is monotone in the size. -/
theorem seg_index_mono (s t : Nat) (h : s ≤ t) : seg_index s ≤ seg_index t := by
  by_cases hs0 : s < 16
  · rw [seg_index_val0 s hs0]
    exact Nat.zero_le _
  by_cases hs1 : s < 32
  · rw [seg_index_val1 s (by omega) hs1]
    by_cases ht1 : t < 32
    · rw [seg_index_val1 t (by omega) ht1]
    by_cases ht2 : t < 64
    · rw [seg_index_val2 t (by omega) ht2]
      omega
    by_cases ht3 : t < 128
    · rw [seg_index_val3 t (by omega) ht3]
      omega
    by_cases ht4 : t < 256
    · rw [seg_index_val4 t (by omega) ht4]
      omega
    by_cases ht5 : t < 480
    · rw [seg_index_val5 t (by omega) ht5]
      omega
    by_cases ht6 : t < 960
    · rw [seg_index_val6 t (by omega) ht6]
      omega
    by_cases ht7 : t < 1920
    · rw [seg_index_val7 t (by omega) ht7]
      omega
    by_cases ht8 : t < 3840
    · rw [seg_index_val8 t (by omega) ht8]
      omega
    by_cases ht9 : t < 7680
    · rw [seg_index_val9 t (by omega) ht9]
      omega
    by_cases ht10 : t < 15360
    · rw [seg_index_val10 t (by omega) ht10]
      omega
    by_cases ht11 : t < 30720
    · rw [seg_index_val11 t (by omega) ht11]
      omega
    by_cases ht12 : t < 61440
    · rw [seg_index_val12 t (by omega) ht12]
      omega
    rw [seg_index_val13 t (by omega)]
    omega
  by_cases hs2 : s < 64
  · rw [seg_index_val2 s (by omega) hs2]
    by_cases ht2 : t < 64
    · rw [seg_index_val2 t (by omega) ht2]
    by_cases ht3 : t < 128
    · rw [seg_index_val3 t (by omega) ht3]
      omega
    by_cases ht4 : t < 256
    · rw [seg_index_val4 t (by omega) ht4]
      omega
    by_cases ht5 : t < 480
    · rw [seg_index_val5 t (by omega) ht5]
      omega
    by_cases ht6 : t < 960
    · rw [seg_index_val6 t (by omega) ht6]
      omega
    by_cases ht7 : t < 1920
    · rw [seg_index_val7 t (by omega) ht7]
      omega
    by_cases ht8 : t < 3840
    · rw [seg_index_val8 t (by omega) ht8]
      omega
    by_cases ht9 : t < 7680
    · rw [seg_index_val9 t (by omega) ht9]
      omega
    by_cases ht10 : t < 15360
    · rw [seg_index_val10 t (by omega) ht10]
      omega
    by_cases ht11 : t < 30720
    · rw [seg_index_val11 t (by omega) ht11]
      omega
    by_cases ht12 : t < 61440
    · rw [seg_index_val12 t (by omega) ht12]
      omega
    rw [seg_index_val13 t (by omega)]
    omega
  by_cases hs3 : s < 128
  · rw [seg_index_val3 s (by omega) hs3]
    by_cases ht3 : t < 128
    · rw [seg_index_val3 t (by omega) ht3]
    by_cases ht4 : t < 256
    · rw [seg_index_val4 t (by omega) ht4]
      omega
    by_cases ht5 : t < 480
    · rw [seg_index_val5 t (by omega) ht5]
      omega
    by_cases ht6 : t < 960
    · rw [seg_index_val6 t (by omega) ht6]
      omega
    by_cases ht7 : t < 1920
    · rw [seg_index_val7 t (by omega) ht7]
      omega
    by_cases ht8 : t < 3840
    · rw [seg_index_val8 t (by omega) ht8]
      omega
    by_cases ht9 : t < 7680
    · rw [seg_index_val9 t (by omega) ht9]
      omega
    by_cases ht10 : t < 15360
    · rw [seg_index_val10 t (by omega) ht10]
      omega
    by_cases ht11 : t < 30720
    · rw [seg_index_val11 t (by omega) ht11]
      omega
    by_cases ht12 : t < 61440
    · rw [seg_index_val12 t (by omega) ht12]
      omega
    rw [seg_index_val13 t (by omega)]
    omega
  by_cases hs4 : s < 256
  · rw [seg_index_val4 s (by omega) hs4]
    by_cases ht4 : t < 256
    · rw [seg_index_val4 t (by omega) ht4]
    by_cases ht5 : t < 480
    · rw [seg_index_val5 t (by omega) ht5]
      omega
    by_cases ht6 : t < 960
    · rw [seg_index_val6 t (by omega) ht6]
      omega
    by_cases ht7 : t < 1920
    · rw [seg_index_val7 t (by omega) ht7]
      omega
    by_cases ht8 : t < 3840
    · rw [seg_index_val8 t (by omega) ht8]
      omega
    by_cases ht9 : t < 7680
    · rw [seg_index_val9 t (by omega) ht9]
      omega
    by_cases ht10 : t < 15360
    · rw [seg_index_val10 t (by omega) ht10]
      omega
    by_cases ht11 : t < 30720
    · rw [seg_index_val11 t (by omega) ht11]
      omega
    by_cases ht12 : t < 61440
    · rw [seg_index_val12 t (by omega) ht12]
      omega
    rw [seg_index_val13 t (by omega)]
    omega
  by_cases hs5 : s < 480
  · rw [seg_index_val5 s (by omega) hs5]
    by_cases ht5 : t < 480
    · rw [seg_index_val5 t (by omega) ht5]
    by_cases ht6 : t < 960
    · rw [seg_index_val6 t (by omega) ht6]
      omega
    by_cases ht7 : t < 1920
    · rw [seg_index_val7 t (by omega) ht7]
      omega
    by_cases ht8 : t < 3840
    · rw [seg_index_val8 t (by omega) ht8]
      omega
    by_cases ht9 : t < 7680
    · rw [seg_index_val9 t (by omega) ht9]
      omega
    by_cases ht10 : t < 15360
    · rw [seg_index_val10 t (by omega) ht10]
      omega
    by_cases ht11 : t < 30720
    · rw [seg_index_val11 t (by omega) ht11]
      omega
    by_cases ht12 : t < 61440
    · rw [seg_index_val12 t (by omega) ht12]
      omega
    rw [seg_index_val13 t (by omega)]
    omega
  by_cases hs6 : s < 960
  · rw [seg_index_val6 s (by omega) hs6]
    by_cases ht6 : t < 960
    · rw [seg_index_val6 t (by omega) ht6]
    by_cases ht7 : t < 1920
    · rw [seg_index_val7 t (by omega) ht7]
      omega
    by_cases ht8 : t < 3840
    · rw [seg_index_val8 t (by omega) ht8]
      omega
    by_cases ht9 : t < 7680
    · rw [seg_index_val9 t (by omega) ht9]
      omega
    by_cases ht10 : t < 15360
    · rw [seg_index_val10 t (by omega) ht10]
      omega
    by_cases ht11 : t < 30720
    · rw [seg_index_val11 t (by omega) ht11]
      omega
    by_cases ht12 : t < 61440
    · rw [seg_index_val12 t (by omega) ht12]
      omega
    rw [seg_index_val13 t (by omega)]
    omega
  by_cases hs7 : s < 1920
  · rw [seg_index_val7 s (by omega) hs7]
    by_cases ht7 : t < 1920
    · rw [seg_index_val7 t (by omega) ht7]
    by_cases ht8 : t < 3840
    · rw [seg_index_val8 t (by omega) ht8]
      omega
    by_cases ht9 : t < 7680
    · rw [seg_index_val9 t (by omega) ht9]
      omega
    by_cases ht10 : t < 15360
    · rw [seg_index_val10 t (by omega) ht10]
      omega
    by_cases ht11 : t < 30720
    · rw [seg_index_val11 t (by omega) ht11]
      omega
    by_cases ht12 : t < 61440
    · rw [seg_index_val12 t (by omega) ht12]
      omega
    rw [seg_index_val13 t (by omega)]
    omega
  by_cases hs8 : s < 3840
  · rw [seg_index_val8 s (by omega) hs8]
    by_cases ht8 : t < 3840
    · rw [seg_index_val8 t (by omega) ht8]
    by_cases ht9 : t < 7680
    · rw [seg_index_val9 t (by omega) ht9]
      omega
    by_cases ht10 : t < 15360
    · rw [seg_index_val10 t (by omega) ht10]
      omega
    by_cases ht11 : t < 30720
    · rw [seg_index_val11 t (by omega) ht11]
      omega
    by_cases ht12 : t < 61440
    · rw [seg_index_val12 t (by omega) ht12]
      omega
    rw [seg_index_val13 t (by omega)]
    omega
  by_cases hs9 : s < 7680
  · rw [seg_index_val9 s (by omega) hs9]
    by_cases ht9 : t < 7680
    · rw [seg_index_val9 t (by omega) ht9]
    by_cases ht10 : t < 15360
    · rw [seg_index_val10 t (by omega) ht10]
      omega
    by_cases ht11 : t < 30720
    · rw [seg_index_val11 t (by omega) ht11]
      omega
    by_cases ht12 : t < 61440
    · rw [seg_index_val12 t (by omega) ht12]
      omega
    rw [seg_index_val13 t (by omega)]
    omega
  by_cases hs10 : s < 15360
  · rw [seg_index_val10 s (by omega) hs10]
    by_cases ht10 : t < 15360
    · rw [seg_index_val10 t (by omega) ht10]
    by_cases ht11 : t < 30720
    · rw [seg_index_val11 t (by omega) ht11]
      omega
    by_cases ht12 : t < 61440
    · rw [seg_index_val12 t (by omega) ht12]
      omega
    rw [seg_index_val13 t (by omega)]
    omega
  by_cases hs11 : s < 30720
  · rw [seg_index_val11 s (by omega) hs11]
    by_cases ht11 : t < 30720
    · rw [seg_index_val11 t (by omega) ht11]
    by_cases ht12 : t < 61440
    · rw [seg_index_val12 t (by omega) ht12]
      omega
    rw [seg_index_val13 t (by omega)]
    omega
  by_cases hs12 : s < 61440
  · rw [seg_index_val12 s (by omega) hs12]
    by_cases ht12 : t < 61440
    · rw [seg_index_val12 t (by omega) ht12]
    rw [seg_index_val13 t (by omega)]
    omega
  rw [seg_index_val13 s (by omega), seg_index_val13 t (by omega)]

/-- The class-advance loop of `find_fit` searches the remaining larger
classes in order. -/
theorem find_fit_loop_eq (m : Mem) (fuel A sls : Nat) :
    ∀ k j, j ≤ 13 → 13 - j ≤ k →
    find_seg_fit m fuel A (sls + j * DSIZE) = none →
    find_fit_loop m sls fuel A k (sls + j * DSIZE) =
      (List.range' (j + 1) (13 - j)).findSome?
        (fun i => find_seg_fit m fuel A (sls + i * DSIZE)) := by
  intro k
  induction k with
  | zero =>
    intro j hj hk hnone
    have hj13 : j = 13 := by omega
    subst hj13
    unfold find_fit_loop
    simp [hnone]
  | succ k ih =>
    intro j hj hk hnone
    unfold find_fit_loop
    by_cases hj13 : j = 13
    · subst hj13
      rw [if_neg (show ¬(sls + 13 * DSIZE < sls + (SEG_NUM - 1) * DSIZE) by
        show ¬(sls + 13 * 8 < sls + (14 - 1) * 8)
        omega)]
      simp [hnone]
    · rw [if_pos (show sls + j * DSIZE < sls + (SEG_NUM - 1) * DSIZE by
        show sls + j * 8 < sls + (14 - 1) * 8
        omega)]
      dsimp only
      have hstep : sls + j * DSIZE + DSIZE = sls + (j + 1) * DSIZE := by
        show sls + j * 8 + 8 = sls + (j + 1) * 8
        ring
      rw [hstep]
      have hrange : List.range' (j + 1) (13 - j) =
          (j + 1) :: List.range' (j + 2) (13 - (j + 1)) := by
        have he : 13 - j = (13 - (j + 1)) + 1 := by omega
        rw [he, List.range'_succ]
      rw [hrange]
      cases hfs : find_seg_fit m fuel A (sls + (j + 1) * DSIZE) with
      | some v => simp [List.findSome?_cons, hfs]
      | none =>
        dsimp only
        rw [ih (j + 1) (by omega) (by omega) hfs]
        simp [List.findSome?_cons, hfs]

/-- `find_fit` searches the classes of index `seg_index A` through 13 in
order, returning the first hit. -/
theorem find_fit_eq (st : Heap) (A : Nat) :
    find_fit st A =
      (List.range' (seg_index A) (14 - seg_index A)).findSome?
        (fun i => find_seg_fit st.mem (list_fuel st) A (st.seg_list_start + i * DSIZE)) := by
  unfold find_fit
  dsimp only
  rw [show get_seg_listp st A = st.seg_list_start + seg_index A * DSIZE from rfl]
  have h13 := seg_index_le A
  have hrange : List.range' (seg_index A) (14 - seg_index A) =
      seg_index A :: List.range' (seg_index A + 1) (13 - seg_index A) := by
    have he : 14 - seg_index A = (13 - seg_index A) + 1 := by omega
    rw [he, List.range'_succ]
  rw [hrange]
  cases hfs : find_seg_fit st.mem (list_fuel st) A
      (st.seg_list_start + seg_index A * DSIZE) with
  | some v => simp [List.findSome?_cons, hfs]
  | none =>
    dsimp only
    rw [find_fit_loop_eq st.mem (list_fuel st) A st.seg_list_start SEG_NUM (seg_index A)
      h13 (show 13 - seg_index A ≤ SEG_NUM by show _ ≤ 14; omega) hfs]
    simp [List.findSome?_cons, hfs]

/-- C7: `find_fit` searches the class lists from `seg_index A` up to
class 13 in order; within one list it is first fit exactly when
`A < 960` and best fit otherwise (smallest fitting node, ties to the
first encountered, exact matches returned immediately); a list search
returns none iff the list has no node of size at least `A`, and
`find_fit` returns none iff every searched list has none. -/
theorem C7_thm (st : Heap) (A : Nat) :
    find_fit st A =
      (List.range' (seg_index A) (14 - seg_index A)).findSome?
        (fun i => find_seg_fit st.mem (list_fuel st) A (st.seg_list_start + i * DSIZE)) ∧
    (find_fit st A = none ↔
      ∀ i ∈ List.range' (seg_index A) (14 - seg_index A),
        find_seg_fit st.mem (list_fuel st) A (st.seg_list_start + i * DSIZE) = none) ∧
    (∀ m fuel slot xs, seglist m fuel slot = some xs →
      (A < 960 →
        find_seg_fit m fuel A slot =
          xs.find? (fun b => decide (A ≤ GET_SIZE m (HDRP b)))) ∧
      (960 ≤ A → find_seg_fit m fuel A slot = bestFit m A xs) ∧
      (find_seg_fit m fuel A slot = none ↔ ∀ x ∈ xs, GET_SIZE m (HDRP x) < A)) ∧
    (∀ m xs b, bestFit m A xs = some b →
      b ∈ xs ∧ A ≤ GET_SIZE m (HDRP b) ∧
      (∀ x ∈ xs, A ≤ GET_SIZE m (HDRP x) → GET_SIZE m (HDRP b) ≤ GET_SIZE m (HDRP x)) ∧
      ∃ l1 l2, xs = l1 ++ b :: l2 ∧
        ∀ x ∈ l1, GET_SIZE m (HDRP x) < A ∨ GET_SIZE m (HDRP b) < GET_SIZE m (HDRP x)) ∧
    (∀ s t : Nat, s ≤ t → seg_index s ≤ seg_index t) := by
  refine ⟨find_fit_eq st A, ?_, ?_, ?_, seg_index_mono⟩
  · rw [find_fit_eq st A]
    exact List.findSome?_eq_none
  · intro m fuel slot xs hsl
    refine ⟨fun hA => find_seg_fit_first m fuel A slot xs hsl hA,
      fun hA => find_seg_fit_best m fuel A slot xs hsl hA, ?_⟩
    by_cases hA : A < 960
    · rw [find_seg_fit_first m fuel A slot xs hsl hA, List.find?_eq_none]
      constructor
      · intro hnone x hx
        have hh := hnone x hx
        simp at hh
        omega
      · intro hall x hx
        have hh := hall x hx
        simp
        omega
    · rw [find_seg_fit_best m fuel A slot xs hsl (by omega)]
      exact bestFit_none_iff m A xs
  · intro m xs b hb
    exact ⟨(bestFit_mem_fit m A xs b hb).1, (bestFit_mem_fit m A xs b hb).2,
      bestFit_min m A xs b hb, bestFit_first m A xs b hb⟩

/-- Witness for C10: the detached 464-byte free block of `heapC10`. -/
theorem C10_wit :
    (16 : Nat) ≤ 464 ∧
    ((remove_free_block (add_free_block heapC10 (BASEADDR + 128)) (BASEADDR + 128)).brk =
        heapC10.brk ∧
      (remove_free_block (add_free_block heapC10 (BASEADDR + 128)) (BASEADDR + 128)).heap_listp =
        heapC10.heap_listp ∧
      (remove_free_block (add_free_block heapC10 (BASEADDR + 128)) (BASEADDR + 128)).seg_list_start =
        heapC10.seg_list_start ∧
      ∀ x, x < BASEADDR + 128 ∨ BASEADDR + 128 + 8 ≤ x →
        (remove_free_block (add_free_block heapC10 (BASEADDR + 128)) (BASEADDR + 128)).mem x =
          heapC10.mem x) :=
  ⟨by decide, C10_thm heapC10 (BASEADDR + 128) 464 (BASEADDR + 40) 0 (by decide)
    (by decide) (by decide) (by decide) (by decide) (by decide) (Or.inl (by decide))⟩

/-- Witness for C8: placing 24 bytes in the free 464-byte chunk of
`heapInit` splits it. -/
theorem C8_wit :
    (16 : Nat) ≤ 464 - 24 ∧
    (get32 (place heapInit (BASEADDR + 128) 24).mem (BASEADDR + 128 - 4) =
        PACK 24 (2 ||| 1) ∧
      get32 (place heapInit (BASEADDR + 128) 24).mem (BASEADDR + 128 + 24 - 4) =
        PACK (464 - 24) 2 ∧
      get32 (place heapInit (BASEADDR + 128) 24).mem (BASEADDR + 128 + 464 - 8) =
        PACK (464 - 24) 0 ∧
      get64 (place heapInit (BASEADDR + 128) 24).mem (BASEADDR + 40) =
        BASEADDR + 128 + 24) :=
  ⟨by decide,
    (C8_thm heapInit (BASEADDR + 128) 24 464 2 0 0 (BASEADDR + 40) (BASEADDR + 40) 0
      (by decide) (by decide) (by decide) (by decide) (by decide) (by decide)
      (by decide) (by decide) (by decide) (by decide) (by decide) (by decide)
      (by decide) (by decide) (by decide) (Or.inl (by decide)) (Or.inl (by decide))
      (Or.inl (by decide))).1 (by decide)⟩

end MM
